import Mathlib

set_option synthInstance.maxHeartbeats 1000000
set_option maxHeartbeats 1000000

/-!
Verification of the MathHub document-structuring pipeline.

This file gives a shallow embedding of the pipeline's pure core
(`apps/api/app/services/mathpix_client.py`, `ai_classifier.py`,
`problem_asset_extractor.py`) and settles the specification claims about it.

Modelling conventions:
* Python strings are modelled as `List Char` (`PStr`); `.strip()`, `.lower()`
  and friends are ASCII-faithful (the pipeline only compares against ASCII
  keywords, so Unicode-only case/space differences are irrelevant here).
* Python floats and `Decimal` are modelled as exact rationals `ℚ`; this is the
  usual idealization of IEEE arithmetic by real arithmetic, and decimal
  literals such as `0.15` denote their decimal value.
* JSON-ish Python values (payload dicts) are modelled by the `JValue` type.
  `dict.get(k)` returning Python `None` for a missing key coincides with the
  explicit `null`, exactly as in Python.
* External collaborators (HTTP, PyMuPDF rasterization, S3) are parameters
  (oracles) of the embedded functions; everything downstream of their returned
  data is embedded from the source.
-/

abbrev PStr := List Char

/-- Python `str.strip()` whitespace test (ASCII part: space, \t, \n, \r, \f, \v). -/
def pyIsSpace (c : Char) : Bool :=
  c = ' ' || c = '\t' || c = '\n' || c = '\r' || c = '\x0c' || c = '\x0b'

/-- Python `str.strip()`. -/
def pyStrip (s : PStr) : PStr :=
  ((s.dropWhile pyIsSpace).reverse.dropWhile pyIsSpace).reverse

/-- Python `str.lower()` (ASCII case folding; the embedded code only compares
against ASCII keywords). -/
def pyLower (s : PStr) : PStr := s.map Char.toLower

/-- Substring test: Python's `needle in haystack` on strings. -/
def pyContains (haystack needle : PStr) : Bool :=
  needle.isPrefixOf haystack ||
    match haystack with
    | [] => false
    | _ :: rest => pyContains rest needle

/-- `"sep".join(parts)`. -/
def pyJoin (sep : PStr) : List PStr → PStr
  | [] => []
  | [x] => x
  | x :: rest => x ++ sep ++ pyJoin sep rest

/-- Python `str.startswith` helper used when embedding anchored regexes. -/
def pyStartsWith (s pre : PStr) : Bool := pre.isPrefixOf s

/-- A JSON-like Python value: the payload dictionaries exchanged with the OCR
provider and carried through the pipeline. -/
inductive JValue where
  | null
  | bool (b : Bool)
  | num (q : ℚ)
  | str (s : PStr)
  | arr (xs : List JValue)
  | obj (fields : List (PStr × JValue))

mutual
def JValue.beq : JValue → JValue → Bool
  | .null, .null => true
  | .bool a, .bool b => a == b
  | .num a, .num b => a == b
  | .str a, .str b => a == b
  | .arr a, .arr b => JValue.beqList a b
  | .obj a, .obj b => JValue.beqFields a b
  | _, _ => false
def JValue.beqList : List JValue → List JValue → Bool
  | [], [] => true
  | a :: as, b :: bs => JValue.beq a b && JValue.beqList as bs
  | _, _ => false
def JValue.beqFields : List (PStr × JValue) → List (PStr × JValue) → Bool
  | [], [] => true
  | (k, v) :: as, (l, w) :: bs => k == l && JValue.beq v w && JValue.beqFields as bs
  | _, _ => false
end

mutual
theorem JValue.beq_refl : ∀ a : JValue, JValue.beq a a = true
  | .null => rfl
  | .bool a => by simp [JValue.beq]
  | .num a => by simp [JValue.beq]
  | .str a => by simp [JValue.beq]
  | .arr a => by simpa [JValue.beq] using JValue.beqList_refl a
  | .obj a => by simpa [JValue.beq] using JValue.beqFields_refl a
theorem JValue.beqList_refl : ∀ a : List JValue, JValue.beqList a a = true
  | [] => rfl
  | a :: as => by
      simp only [JValue.beqList, Bool.and_eq_true]
      exact ⟨JValue.beq_refl a, JValue.beqList_refl as⟩
theorem JValue.beqFields_refl : ∀ a : List (PStr × JValue), JValue.beqFields a a = true
  | [] => rfl
  | (k, v) :: as => by
      simp only [JValue.beqFields, Bool.and_eq_true, beq_self_eq_true, true_and]
      exact ⟨JValue.beq_refl v, JValue.beqFields_refl as⟩
end

mutual
theorem JValue.beq_sound : ∀ a b : JValue, JValue.beq a b = true → a = b
  | .null, .null, _ => rfl
  | .bool a, .bool b, h => by simp [JValue.beq] at h; simp [h]
  | .num a, .num b, h => by simp [JValue.beq] at h; simp [h]
  | .str a, .str b, h => by simp [JValue.beq] at h; simp [h]
  | .arr a, .arr b, h => by
      simp only [JValue.beq] at h
      exact congrArg JValue.arr (JValue.beqList_sound a b h)
  | .obj a, .obj b, h => by
      simp only [JValue.beq] at h
      exact congrArg JValue.obj (JValue.beqFields_sound a b h)
theorem JValue.beqList_sound : ∀ a b : List JValue, JValue.beqList a b = true → a = b
  | [], [], _ => rfl
  | a :: as, b :: bs, h => by
      simp only [JValue.beqList, Bool.and_eq_true] at h
      rw [JValue.beq_sound a b h.1, JValue.beqList_sound as bs h.2]
theorem JValue.beqFields_sound :
    ∀ a b : List (PStr × JValue), JValue.beqFields a b = true → a = b
  | [], [], _ => rfl
  | (k, v) :: as, (l, w) :: bs, h => by
      simp only [JValue.beqFields, Bool.and_eq_true] at h
      obtain ⟨⟨hk, hv⟩, hrest⟩ := h
      rw [eq_of_beq hk, JValue.beq_sound v w hv, JValue.beqFields_sound as bs hrest]
end

instance : DecidableEq JValue := fun a b =>
  if h : JValue.beq a b = true then
    isTrue (JValue.beq_sound a b h)
  else
    isFalse (fun e => h (e ▸ JValue.beq_refl a))

/-- First binding of a key in a dict, as Python dict lookup. -/
def JValue.lookup : List (PStr × JValue) → PStr → Option JValue
  | [], _ => none
  | (k, v) :: rest, key => if k = key then some v else JValue.lookup rest key

/-- `d.get(key)`: `None` both for a missing key and for an explicit `null`. -/
def JValue.get : JValue → PStr → JValue
  | .obj fields, key => (JValue.lookup fields key).getD .null
  | _, _ => .null

/-- Python truthiness (`bool(value)`). -/
def JValue.truthy : JValue → Bool
  | .null => false
  | .bool b => b
  | .num q => q != 0
  | .str s => s ≠ []
  | .arr xs => xs ≠ []
  | .obj fields => fields ≠ []

def JValue.isObj : JValue → Bool
  | .obj _ => true
  | _ => false

def JValue.isArr : JValue → Bool
  | .arr _ => true
  | _ => false

def JValue.isStr : JValue → Bool
  | .str _ => true
  | _ => false

def JValue.isNum : JValue → Bool
  | .num _ => true
  | _ => false

def JValue.asStr : JValue → Option PStr
  | .str s => some s
  | _ => none

/-- Python `a or b`: `a` when truthy, else `b`. -/
def pyOr (a b : JValue) : JValue := if a.truthy then a else b

/-- Decimal digits of a natural number (via `Nat.toDigits`, structural). -/
def natDigits (n : Nat) : PStr := Nat.toDigits 10 n

/-- Render an integer in decimal. -/
def intRender (i : Int) : PStr :=
  if i < 0 then '-' :: natDigits i.natAbs else natDigits i.natAbs

/-- Render a rational. For integral values this matches Python's `str` of the
corresponding int/float; non-integral values render as `num/den`, whereas
Python renders the decimal expansion of the float.  The pipeline only ever
compares such renderings against fixed ASCII keyword sets (status words, asset
keywords) or tests them for emptiness, and both renderings agree on every such
test, so the difference is unobservable in the embedded code. -/
def ratRender (q : ℚ) : PStr :=
  if q.den = 1 then intRender q.num
  else intRender q.num ++ ['/'] ++ natDigits q.den

mutual
/-- Python `str(value)`.  `str` of a list/dict is its `repr`. -/
def pyStrOf : JValue → PStr
  | .null => "None".data
  | .bool true => "True".data
  | .bool false => "False".data
  | .num q => ratRender q
  | .str s => s
  | .arr xs => '[' :: pyJoin ", ".data (pyReprList xs) ++ [']']
  | .obj fields => '\x7b' :: pyJoin ", ".data (pyReprFields fields) ++ ['\x7d']
/-- Python `repr(value)` (strings quoted; quote-escaping inside strings is not
reproduced, which is unobservable for the keyword/emptiness tests above). -/
def pyRepr : JValue → PStr
  | .str s => '\'' :: s ++ ['\'']
  | v => pyStrOfAux v
def pyStrOfAux : JValue → PStr
  | .null => "None".data
  | .bool true => "True".data
  | .bool false => "False".data
  | .num q => ratRender q
  | .str s => s
  | .arr xs => '[' :: pyJoin ", ".data (pyReprList xs) ++ [']']
  | .obj fields => '\x7b' :: pyJoin ", ".data (pyReprFields fields) ++ ['\x7d']
def pyReprList : List JValue → List PStr
  | [] => []
  | v :: rest => pyRepr v :: pyReprList rest
def pyReprFields : List (PStr × JValue) → List PStr
  | [] => []
  | (k, v) :: rest => ('\'' :: k ++ ['\''] ++ ": ".data ++ pyRepr v) :: pyReprFields rest
end

/-- JSON string escaping for `json.dumps(..., ensure_ascii=False)`: quote and
backslash (the payloads serialized by the pipeline carry no control
characters, so the remaining escapes are not reproduced). -/
def jsonEscape (s : PStr) : PStr :=
  s.flatMap fun c => if c = '"' ∨ c = '\\' then ['\\', c] else [c]

mutual
/-- `json.dumps(value, ensure_ascii=False)` with default separators.  Rationals
render as in `ratRender`; as above the output is only keyword-matched or used
as an opaque dedup key, where the rendering difference is unobservable. -/
def jsonDumps : JValue → PStr
  | .null => "null".data
  | .bool true => "true".data
  | .bool false => "false".data
  | .num q => ratRender q
  | .str s => '"' :: jsonEscape s ++ ['"']
  | .arr xs => '[' :: pyJoin ", ".data (jsonDumpsList xs) ++ [']']
  | .obj fields => '\x7b' :: pyJoin ", ".data (jsonDumpsFields fields) ++ ['\x7d']
def jsonDumpsList : List JValue → List PStr
  | [] => []
  | v :: rest => jsonDumps v :: jsonDumpsList rest
def jsonDumpsFields : List (PStr × JValue) → List PStr
  | [] => []
  | (k, v) :: rest =>
      ('"' :: jsonEscape k ++ ['"'] ++ ": ".data ++ jsonDumps v) :: jsonDumpsFields rest
end

/-- Lexicographic (code-point) order on strings, as Python string `<`. -/
def pstrLe (a b : PStr) : Bool :=
  match a, b with
  | [], _ => true
  | _ :: _, [] => false
  | c :: cs, d :: ds => if c = d then pstrLe cs ds else decide (c < d)

/-- Stable insertion into a `le`-sorted list (insertion goes before later
equal elements, matching Python's stable `sorted`). -/
def stableInsert (le : α → α → Bool) (x : α) : List α → List α
  | [] => [x]
  | y :: ys => if le x y then x :: y :: ys else y :: stableInsert le x ys

/-- Stable sort: the unique stable `le`-sorted permutation, hence exactly
Python's `sorted(xs, key=...)` for the corresponding boolean `le`. -/
def stableSort (le : α → α → Bool) (xs : List α) : List α :=
  xs.foldr (stableInsert le) []

mutual
/-- `json.dumps(value, ensure_ascii=False, sort_keys=True)` (dict keys sorted
at every level), used as the bbox dedup key.  Each dict entry is rendered
first and the rendered entries are then key-sorted; since the sort key is the
untouched dict key, this equals sorting the fields before rendering. -/
def jsonDumpsSorted : JValue → PStr
  | .null => "null".data
  | .bool true => "true".data
  | .bool false => "false".data
  | .num q => ratRender q
  | .str s => '"' :: jsonEscape s ++ ['"']
  | .arr xs => '[' :: pyJoin ", ".data (jsonDumpsSortedList xs) ++ [']']
  | .obj fields =>
      '\x7b' ::
        pyJoin ", ".data
          ((stableSort (fun a b => pstrLe a.1 b.1) (jsonDumpsSortedFields fields)).map
            Prod.snd) ++ ['\x7d']
def jsonDumpsSortedList : List JValue → List PStr
  | [] => []
  | v :: rest => jsonDumpsSorted v :: jsonDumpsSortedList rest
def jsonDumpsSortedFields : List (PStr × JValue) → List (PStr × PStr)
  | [] => []
  | (k, v) :: rest =>
      (k, '"' :: jsonEscape k ++ ['"'] ++ ": ".data ++ jsonDumpsSorted v) ::
        jsonDumpsSortedFields rest
end

/-- Digits run parser: consumes leading decimal digits. -/
def takeDigits (s : PStr) : PStr × PStr := (s.takeWhile Char.isDigit, s.dropWhile Char.isDigit)

/-- Value of a digit string. -/
def digitsToNat (ds : PStr) : Nat := ds.foldl (fun acc c => acc * 10 + (c.toNat - '0'.toNat)) 0

/-- Parse a decimal number string the way `Decimal(s)` / `float(s)` does:
optional surrounding whitespace, optional sign, `digits[.digits]` or
`.digits`, optional `e`/`E` exponent.  The special `inf`/`nan` forms are not
modelled (they never reach the embedded call sites). -/
def parseDecimalString (s : PStr) : Option ℚ :=
  let s := pyStrip s
  let (sign, s) :=
    match s with
    | '-' :: rest => ((-1 : ℚ), rest)
    | '+' :: rest => ((1 : ℚ), rest)
    | _ => ((1 : ℚ), s)
  let (intPart, s) := takeDigits s
  let (fracPart, s) :=
    match s with
    | '.' :: rest => takeDigits rest
    | _ => ([], s)
  if intPart = [] ∧ fracPart = [] then none
  else
    let mantissa : ℚ :=
      (digitsToNat intPart : ℚ) + (digitsToNat fracPart : ℚ) / ((10 : ℚ) ^ fracPart.length)
    match s with
    | [] => some (sign * mantissa)
    | 'e' :: rest => parseExponent (sign * mantissa) rest
    | 'E' :: rest => parseExponent (sign * mantissa) rest
    | _ => none
where
  parseExponent (m : ℚ) (s : PStr) : Option ℚ :=
    let (neg, s) :=
      match s with
      | '-' :: rest => (true, rest)
      | '+' :: rest => (false, rest)
      | _ => (false, s)
    let (ds, rest) := takeDigits s
    if ds = [] ∨ rest ≠ [] then none
    else if neg then some (m / (10 : ℚ) ^ digitsToNat ds)
    else some (m * (10 : ℚ) ^ digitsToNat ds)

/-- Python `float(value)` on a payload value: numbers pass through, booleans
coerce to 0/1, numeric strings parse, everything else raises (`none`). -/
def pyFloatOfJ : JValue → Option ℚ
  | .num q => some q
  | .bool b => some (if b then 1 else 0)
  | .str s => parseDecimalString s
  | _ => none

/-- `Decimal(str(value))`: for a float, `str` round-trips its value exactly, so
a number passes through; `str` of a boolean/None/list/dict does not parse
(`Decimal` raises, `none` here); strings parse directly. -/
def pyDecimalOfStr : JValue → Option ℚ
  | .num q => some q
  | .str s => parseDecimalString s
  | _ => none

/-- Truncation toward zero, as Python `int()` of a number. -/
def ratTrunc (q : ℚ) : Int := q.num / (q.den : Int)

/-- Python `int(value)`: numbers truncate toward zero, booleans coerce,
integer-literal strings parse (optional sign/whitespace), others raise. -/
def pyIntOfJ : JValue → Option Int
  | .num q => some (ratTrunc q)
  | .bool b => some (if b then 1 else 0)
  | .str s =>
      let s := pyStrip s
      let (sign, s) :=
        match s with
        | '-' :: rest => ((-1 : Int), rest)
        | '+' :: rest => ((1 : Int), rest)
        | _ => ((1 : Int), s)
      if s ≠ [] ∧ s.all Char.isDigit then some (sign * (digitsToNat s : Int)) else none
  | _ => none

/-! ## `app/services/mathpix_client.py` -/

namespace Mathpix

/-- Completion status words recognized by `map_mathpix_job_status`. -/
def completedStatusWords : List PStr :=
  ["completed".data, "complete".data, "done".data, "success".data, "succeeded".data]

/-- Failure status words recognized by `map_mathpix_job_status`. -/
def failedStatusWords : List PStr :=
  ["failed".data, "failure".data, "error".data, "cancelled".data, "canceled".data]

/-- Uploading status words recognized by `map_mathpix_job_status`. -/
def uploadingStatusWords : List PStr :=
  ["queued".data, "uploaded".data, "uploading".data]

/-- `str(payload.get("status") or payload.get("state") or "").strip().lower()`. -/
def rawStatusOf (payload : JValue) : PStr :=
  pyLower (pyStrip (pyStrOf
    (pyOr (payload.get "status".data) (pyOr (payload.get "state".data) (.str [])))))

/-- The `error_message` computed by `map_mathpix_job_status` (`null` = Python
`None`): a dict error yields its `message` or its JSON dump, any other truthy
error value is stringified. -/
def errorMessageOf (payload : JValue) : JValue :=
  match payload.get "error".data with
  | .obj fields =>
      pyOr ((JValue.obj fields).get "message".data) (.str (jsonDumps (.obj fields)))
  | v => if v.truthy then .str (pyStrOf v) else .null

/-- The first truthy progress field, defaulting to `0`. -/
def progressValueOf (payload : JValue) : JValue :=
  pyOr (payload.get "percent_done".data)
    (pyOr (payload.get "progress_pct".data)
      (pyOr (payload.get "progress".data)
        (pyOr (payload.get "percent".data) (.num 0))))

/-- Progress normalization: `Decimal(str(v))` (0 on failure), values ≤ 1
scaled by 100, then clamped to [0, 100]. -/
def progressOf (payload : JValue) : ℚ :=
  let progress := (pyDecimalOfStr (progressValueOf payload)).getD 0
  let progress := if progress ≤ 1 then progress * 100 else progress
  max 0 (min 100 progress)

/-- `map_mathpix_job_status(payload)`: `(status, progress, error_message)`. -/
def map_mathpix_job_status (payload : JValue) : PStr × ℚ × JValue :=
  let raw_status := rawStatusOf payload
  let error_message := errorMessageOf payload
  let progress := progressOf payload
  let completed :=
    (payload.get "completed".data).truthy || completedStatusWords.contains raw_status
  let failed := error_message.truthy || failedStatusWords.contains raw_status
  if completed then ("completed".data, 100, .null)
  else if failed then
    ("failed".data, progress, pyOr error_message (.str "Mathpix returned failure status".data))
  else if uploadingStatusWords.contains raw_status then ("uploading".data, progress, .null)
  else ("processing".data, progress, .null)

/-- `_first_non_empty_str(source, keys)`. -/
def first_non_empty_str (source : JValue) : List PStr → Option PStr
  | [] => none
  | key :: rest =>
      match source.get key with
      | .str s => if pyStrip s ≠ [] then some (pyStrip s) else first_non_empty_str source rest
      | _ => first_non_empty_str source rest

/-- `_extract_line_text(line)`. -/
def extract_line_text (line : JValue) : Option PStr :=
  match line.get "text".data with
  | .str s =>
      if pyStrip s ≠ [] then some (pyStrip s)
      else extractFromConversion line
  | _ => extractFromConversion line
where
  extractFromConversion (line : JValue) : Option PStr :=
    match line.get "conversion_output".data with
    | .str s => if pyStrip s ≠ [] then some (pyStrip s) else none
    | .obj fields =>
        first_non_empty_str (.obj fields)
          ["text".data, "markdown".data, "latex_styled".data, "latex".data, "value".data]
    | _ => none

/-- `_to_page_no(value, fallback=...)`. -/
def to_page_no (value : JValue) (fallback : Int) : Int :=
  let page_no := (pyIntOfJ value).getD fallback
  if page_no ≤ 0 then fallback else page_no

/-- Keys probed for a status page's extracted text. -/
def statusPageTextKeys : List PStr :=
  ["text".data, "markdown".data, "md".data, "content".data, "html".data,
    "latex_styled".data, "latex".data]

/-- One page entry of `extract_mathpix_pages` for a dict item of `pages`. -/
def statusPageEntry (index : Nat) (item : JValue) : JValue :=
  let page_no_raw :=
    pyOr (item.get "page".data)
      (pyOr (item.get "page_no".data)
        (pyOr (item.get "number".data) (.num (index + 1))))
  let page_no := (pyIntOfJ page_no_raw).getD (index + 1)
  let extracted_text := first_non_empty_str item statusPageTextKeys
  let extracted_latex := first_non_empty_str item ["latex_styled".data, "latex".data]
  .obj
    [("page_no".data, .num page_no),
     ("extracted_text".data, (extracted_text.map JValue.str).getD .null),
     ("extracted_latex".data, (extracted_latex.map JValue.str).getD .null),
     ("raw_payload".data, item)]

/-- Loop body of `extract_mathpix_pages` over `payload["pages"]`. -/
def statusPagesLoop : Nat → List JValue → List JValue
  | _, [] => []
  | index, item :: rest =>
      match item with
      | .obj fields => statusPageEntry index (.obj fields) :: statusPagesLoop (index + 1) rest
      | _ => statusPagesLoop (index + 1) rest

/-- `extract_mathpix_pages(payload)` (status-level page extraction). -/
def extract_mathpix_pages (payload : JValue) : List JValue :=
  match payload.get "pages".data with
  | .arr source_pages => statusPagesLoop 0 source_pages
  | _ =>
    match payload.get "line_data".data with
    | .arr line_data =>
        let lines := (line_data.filter JValue.isObj).filterMap extract_line_text
        let text : JValue :=
          if lines ≠ [] then .str (pyStrip (pyJoin ['\n'] lines)) else .null
        [.obj
          [("page_no".data, .num 1),
           ("extracted_text".data, text),
           ("extracted_latex".data, .null),
           ("raw_payload".data, .obj [("line_data".data, .arr line_data)])]]
    | _ =>
      match payload.get "text".data with
      | .str s =>
          if pyStrip s ≠ [] then
            [.obj
              [("page_no".data, .num 1),
               ("extracted_text".data, .str (pyStrip s)),
               ("extracted_latex".data, .null),
               ("raw_payload".data, .obj [("text".data, .str s)])]]
          else []
      | _ => []

/-- One page entry of `extract_mathpix_pages_from_lines` for a dict item. -/
def linePageEntry (index : Nat) (item : JValue) : JValue :=
  let page_no_raw :=
    pyOr (item.get "page".data)
      (pyOr (item.get "page_no".data)
        (pyOr (item.get "number".data) (.num (index + 1))))
  let page_no := (pyIntOfJ page_no_raw).getD (index + 1)
  let text_lines :=
    match item.get "lines".data with
    | .arr lines => (lines.filter JValue.isObj).filterMap extract_line_text
    | _ => []
  let extracted_text : JValue :=
    if text_lines ≠ [] then
      let joined := pyStrip (pyJoin ['\n'] text_lines)
      if joined ≠ [] then .str joined else .null
    else .null
  let extracted_latex := first_non_empty_str item ["latex_styled".data, "latex".data]
  .obj
    [("page_no".data, .num page_no),
     ("extracted_text".data, extracted_text),
     ("extracted_latex".data, (extracted_latex.map JValue.str).getD .null),
     ("raw_payload".data, item)]

/-- Loop body of `extract_mathpix_pages_from_lines`. -/
def linePagesLoop : Nat → List JValue → List JValue
  | _, [] => []
  | index, item :: rest =>
      match item with
      | .obj fields => linePageEntry index (.obj fields) :: linePagesLoop (index + 1) rest
      | _ => linePagesLoop (index + 1) rest

/-- `extract_mathpix_pages_from_lines(payload)`. -/
def extract_mathpix_pages_from_lines (payload : JValue) : List JValue :=
  match payload.get "pages".data with
  | .arr source_pages => linePagesLoop 0 source_pages
  | _ => []

/-- Replace the binding of `key` in place, appending when absent
(Python `d[key] = value`). -/
def setField (fields : List (PStr × JValue)) (key : PStr) (value : JValue) :
    List (PStr × JValue) :=
  match fields with
  | [] => [(key, value)]
  | (k, v) :: rest =>
      if k = key then (k, value) :: rest else (k, v) :: setField rest key value

/-- `d.setdefault(key, value)`: add only when the key is absent. -/
def setDefaultField (fields : List (PStr × JValue)) (key : PStr) (value : JValue) :
    List (PStr × JValue) :=
  if (JValue.lookup fields key).isSome then fields else fields ++ [(key, value)]

/-- `d[key] = value` on a whole `JValue` (callers guarantee a dict). -/
def objSet (v : JValue) (key : PStr) (value : JValue) : JValue :=
  match v with
  | .obj fields => .obj (setField fields key value)
  | other => other

/-- Association-list view of `merged_by_page_no` (the final result is sorted
by key, so only the key→value mapping and key set matter; we keep insertion
order like a Python dict). -/
def upsertEntry (m : List (Int × JValue)) (key : Int) (value : JValue) :
    List (Int × JValue) :=
  match m with
  | [] => [(key, value)]
  | (k, v) :: rest =>
      if k = key then (k, value) :: rest else (k, v) :: upsertEntry rest key value

def lookupEntry (m : List (Int × JValue)) (key : Int) : Option JValue :=
  match m with
  | [] => none
  | (k, v) :: rest => if k = key then some v else lookupEntry rest key

/-- First loop of `merge_mathpix_pages`: seed the map from status pages. -/
def mergeStatusLoop : Nat → List JValue → List (Int × JValue) → List (Int × JValue)
  | _, [], m => m
  | index, page :: rest, m =>
      match page with
      | .obj fields =>
          let page := JValue.obj fields
          let page_no := to_page_no (page.get "page_no".data) (index + 1)
          let entry : JValue :=
            .obj
              [("page_no".data, .num page_no),
               ("extracted_text".data, page.get "extracted_text".data),
               ("extracted_latex".data, page.get "extracted_latex".data),
               ("raw_payload".data, page.get "raw_payload".data)]
          mergeStatusLoop (index + 1) rest (upsertEntry m page_no entry)
      | _ => mergeStatusLoop (index + 1) rest m

/-- Raw-payload merge for a page present in both sources: the line payload is
the base, status-only keys are added via `setdefault`, and the status payload
is preserved under `_mathpix_status_page`. -/
def mergedRawOf (line_raw status_raw : JValue) : JValue :=
  match line_raw with
  | .obj lr =>
      match status_raw with
      | .obj sr =>
          let base := sr.foldl (fun acc kv => setDefaultField acc kv.1 kv.2) lr
          .obj (setField base "_mathpix_status_page".data (.obj sr))
      | _ => .obj lr
  | _ => if status_raw ≠ .null then status_raw else line_raw

/-- Second loop of `merge_mathpix_pages`: fold in the lines.json pages. -/
def mergeLineLoop : Nat → List JValue → List (Int × JValue) → List (Int × JValue)
  | _, [], m => m
  | index, page :: rest, m =>
      match page with
      | .obj fields =>
          let page := JValue.obj fields
          let page_no := to_page_no (page.get "page_no".data) (index + 1)
          let line_raw := page.get "raw_payload".data
          match lookupEntry m page_no with
          | none =>
              let entry : JValue :=
                .obj
                  [("page_no".data, .num page_no),
                   ("extracted_text".data, page.get "extracted_text".data),
                   ("extracted_latex".data, page.get "extracted_latex".data),
                   ("raw_payload".data, line_raw)]
              mergeLineLoop (index + 1) rest (upsertEntry m page_no entry)
          | some existing =>
              let status_raw := existing.get "raw_payload".data
              let merged_raw := mergedRawOf line_raw status_raw
              let existing :=
                objSet existing "extracted_text".data
                  (pyOr (page.get "extracted_text".data) (existing.get "extracted_text".data))
              let existing :=
                objSet existing "extracted_latex".data
                  (pyOr (existing.get "extracted_latex".data) (page.get "extracted_latex".data))
              let existing := objSet existing "raw_payload".data merged_raw
              mergeLineLoop (index + 1) rest (upsertEntry m page_no existing)
      | _ => mergeLineLoop (index + 1) rest m

/-- `merge_mathpix_pages(status_pages=..., line_pages=...)`. -/
def merge_mathpix_pages (status_pages line_pages : List JValue) : List JValue :=
  let m := mergeStatusLoop 0 status_pages []
  let m := mergeLineLoop 0 line_pages m
  (stableSort (fun a b => decide (a.1 ≤ b.1)) m).map Prod.snd

/-- Synthetic timeout message produced when the poll budget is exhausted. -/
def pollTimeoutMessage (maxPolls : Nat) : PStr :=
  "Mathpix polling timeout after ".data ++ natDigits maxPolls ++ " polls".data

/-- Modelled from the spec: `src/` contains only the single-shot sync endpoint
(`sync_ocr_job_with_mathpix` performs one status fetch); the bounded
`poll_until_completed(...)` loop of spec §4.5 is not present under `src/`, so
it is modelled from the spec's words: at most `maxPolls` iterations, each
fetching and mapping a status payload; only a `completed` mapped status ends
the loop, and then one best-effort lines fetch (`none` = the fetch failed and
is swallowed) may enrich the pages; exhausting the budget yields a synthetic
`failed` status with a timeout message.  `fetchStatus i` / `fetchLines i` are
the provider's responses at iteration `i`. -/
def pollLoop (fetchStatus : Nat → JValue) (fetchLines : Nat → Option JValue)
    (maxPolls : Nat) : Nat → Nat → PStr × ℚ × JValue × JValue × List JValue
  | _, 0 => ("failed".data, 0, .str (pollTimeoutMessage maxPolls), .null, [])
  | i, remaining + 1 =>
      let status_result := fetchStatus i
      let mapped := map_mathpix_job_status status_result
      if mapped.1 = "completed".data then
        let pages := extract_mathpix_pages status_result
        let pages :=
          match fetchLines i with
          | some lines_result =>
              let line_pages := extract_mathpix_pages_from_lines lines_result
              if line_pages ≠ [] then
                merge_mathpix_pages pages line_pages
              else pages
          | none => pages
        (mapped.1, mapped.2.1, mapped.2.2, status_result, pages)
      else pollLoop fetchStatus fetchLines maxPolls (i + 1) remaining

/-- Modelled from the spec (see `pollLoop`). -/
def poll_until_completed (fetchStatus : Nat → JValue) (fetchLines : Nat → Option JValue)
    (maxPolls : Nat) : PStr × ℚ × JValue × JValue × List JValue :=
  pollLoop fetchStatus fetchLines maxPolls 0 maxPolls

end Mathpix

/-! ## Claims C1 and C10: status mapping -/

/-- C1: `map_mathpix_job_status` satisfies the spec's three vectors —
`{"completed": true} ↦ ("completed", 100, None)`;
`{"percent_done": 0.42} ↦ ("processing", 42, None)` (a progress value ≤ 1 is
auto-scaled to a 0–100 percentage); `{"status": "failed", "error": "x"}` maps
to status `"failed"` with error message `"x"` — and every payload whose
`completed` flag is falsy, whose computed error message is `None`, and whose
normalized status string is recognized by none of the completion / failure /
uploading word sets maps to `"processing"`, never `"completed"`. -/
theorem claim_C1_map_status_vectors_and_default :
    Mathpix.map_mathpix_job_status (.obj [("completed".data, .bool true)]) =
        ("completed".data, 100, .null) ∧
    Mathpix.map_mathpix_job_status (.obj [("percent_done".data, .num 0.42)]) =
        ("processing".data, 42, .null) ∧
    ((Mathpix.map_mathpix_job_status
        (.obj [("status".data, .str "failed".data), ("error".data, .str "x".data)])).1 =
        "failed".data ∧
      (Mathpix.map_mathpix_job_status
        (.obj [("status".data, .str "failed".data), ("error".data, .str "x".data)])).2.2 =
        .str "x".data) ∧
    ∀ payload : JValue,
      (payload.get "completed".data).truthy = false →
      Mathpix.errorMessageOf payload = .null →
      Mathpix.completedStatusWords.contains (Mathpix.rawStatusOf payload) = false →
      Mathpix.failedStatusWords.contains (Mathpix.rawStatusOf payload) = false →
      Mathpix.uploadingStatusWords.contains (Mathpix.rawStatusOf payload) = false →
      (Mathpix.map_mathpix_job_status payload).1 = "processing".data := by
  refine ⟨by decide, ?_, ⟨by decide, by decide⟩, ?_⟩
  · have h : Mathpix.progressOf (.obj [("percent_done".data, .num 0.42)]) = 42 := by
      norm_num [Mathpix.progressOf, Mathpix.progressValueOf, pyDecimalOfStr, pyOr,
        JValue.get, JValue.lookup, JValue.truthy]
    simp only [Mathpix.map_mathpix_job_status, h]
    decide
  · intro payload hc he h1 h2 h3
    simp only [Mathpix.map_mathpix_job_status, hc, he, h1, h2, h3]
    rfl

/-- Witness for C1's universal part: a payload with only an unrecognized
status string maps to `"processing"`. -/
theorem claim_C1_witness :
    ((JValue.obj [("status".data, .str "weird".data)]).get "completed".data).truthy = false ∧
    (Mathpix.map_mathpix_job_status
      (.obj [("status".data, .str "weird".data)])).1 = "processing".data :=
  ⟨by decide,
    claim_C1_map_status_vectors_and_default.2.2.2
      (.obj [("status".data, .str "weird".data)])
      (by decide) (by decide) (by decide) (by decide) (by decide)⟩

/-- C10: completion takes precedence over failure — any payload whose
`completed` flag is truthy or whose normalized status string is one of the
completion words maps to `("completed", 100, None)`, even if the same payload
carries a non-empty `error` field or a failure status string; the error
message is discarded. -/
theorem claim_C10_completed_precedence (payload : JValue)
    (h : (payload.get "completed".data).truthy = true ∨
      Mathpix.completedStatusWords.contains (Mathpix.rawStatusOf payload) = true) :
    Mathpix.map_mathpix_job_status payload = ("completed".data, 100, .null) := by
  rcases h with h | h <;>
    simp only [Mathpix.map_mathpix_job_status, h, Bool.true_or, Bool.or_true, if_true]

/-- Witness for C10: a payload that is simultaneously `completed: true`,
`status: "failed"` and carries an error message still maps to
`("completed", 100, None)`. -/
theorem claim_C10_witness :
    ((JValue.obj
        [("completed".data, .bool true), ("status".data, .str "failed".data),
          ("error".data, .str "boom".data)]).get "completed".data).truthy = true ∧
    Mathpix.map_mathpix_job_status
        (.obj
          [("completed".data, .bool true), ("status".data, .str "failed".data),
            ("error".data, .str "boom".data)]) = ("completed".data, 100, .null) :=
  ⟨by decide, claim_C10_completed_precedence _ (Or.inl (by decide))⟩

/-! ## Claim C2: page merging -/

namespace Mathpix

/-- The canonical page dict shape built by the extraction and merge loops. -/
def mkPage (n : Int) (t l r : JValue) : JValue :=
  .obj [("page_no".data, .num (n : ℚ)), ("extracted_text".data, t),
        ("extracted_latex".data, l), ("raw_payload".data, r)]

theorem get_mkPage_page_no (n : Int) (t l r : JValue) :
    (mkPage n t l r).get "page_no".data = .num (n : ℚ) := by
  simp [mkPage, JValue.get, JValue.lookup]

theorem get_mkPage_text (n : Int) (t l r : JValue) :
    (mkPage n t l r).get "extracted_text".data = t := by
  simp [mkPage, JValue.get, JValue.lookup]

theorem get_mkPage_latex (n : Int) (t l r : JValue) :
    (mkPage n t l r).get "extracted_latex".data = l := by
  simp [mkPage, JValue.get, JValue.lookup]

theorem get_mkPage_raw (n : Int) (t l r : JValue) :
    (mkPage n t l r).get "raw_payload".data = r := by
  simp [mkPage, JValue.get, JValue.lookup]

theorem ratTrunc_intCast (n : Int) : ratTrunc (n : ℚ) = n := by
  simp [ratTrunc, Rat.num_intCast, Rat.den_intCast]

theorem to_page_no_intCast (n : Int) (hn : 0 < n) (f : Int) :
    to_page_no (.num (n : ℚ)) f = n := by
  simp [to_page_no, pyIntOfJ, ratTrunc_intCast, not_le.mpr hn]

/-- Well-formed, strictly ascending canonical status pages (all page numbers
greater than the accumulator bound). -/
def canonicalPages : Int → List JValue → Prop
  | _, [] => True
  | lastNo, p :: rest =>
      ∃ n t l r, lastNo < n ∧ p = mkPage n t l r ∧ canonicalPages n rest

theorem upsertEntry_of_not_mem (m : List (Int × JValue)) (k : Int) (v : JValue)
    (h : ∀ kv ∈ m, kv.1 ≠ k) : upsertEntry m k v = m ++ [(k, v)] := by
  induction m with
  | nil => rfl
  | cons kv rest ih =>
      have hk : kv.1 ≠ k := h kv (List.mem_cons_self kv rest)
      simp only [upsertEntry, if_neg hk, List.cons_append]
      rw [ih (fun x hx => h x (List.mem_cons_of_mem kv hx))]

theorem stableSort_pairwise_id (le : α → α → Bool) (l : List α)
    (h : List.Pairwise (fun a b => le a b = true) l) : stableSort le l = l := by
  induction l with
  | nil => rfl
  | cons x xs ih =>
      simp only [stableSort, List.foldr] at *
      rw [ih h.of_cons]
      cases xs with
      | nil => rfl
      | cons y ys =>
          have : le x y = true := (List.pairwise_cons.mp h).1 y (List.mem_cons_self y ys)
          simp [stableInsert, this]

/-- The status-page seeding loop on canonical ascending pages appends one
entry per page, each rebuilding the page itself. -/
theorem mergeStatusLoop_canonical :
    ∀ (sps : List JValue) (lastNo : Int) (idx : Nat) (acc : List (Int × JValue)),
      canonicalPages lastNo sps → 0 ≤ lastNo →
      (∀ kv ∈ acc, kv.1 ≤ lastNo) →
      ∃ es : List (Int × JValue),
        mergeStatusLoop idx sps acc = acc ++ es ∧
        es.map Prod.snd = sps ∧
        (∀ kv ∈ es, lastNo < kv.1) ∧
        List.Pairwise (fun a b : Int × JValue => a.1 < b.1) es
  | [], lastNo, idx, acc, _, _, _ => ⟨[], by simp [mergeStatusLoop], by simp, by simp, by simp⟩
  | p :: rest, lastNo, idx, acc, h, hnn, hacc => by
      obtain ⟨n, t, l, r, hlt, rfl, hrest⟩ := h
      have hn : 0 < n := lt_of_le_of_lt hnn hlt
      have hentry :
          mergeStatusLoop idx (mkPage n t l r :: rest) acc =
            mergeStatusLoop (idx + 1) rest (upsertEntry acc n (mkPage n t l r)) := by
        simp [mkPage, mergeStatusLoop, JValue.get, JValue.lookup, to_page_no_intCast n hn]
      have hupsert : upsertEntry acc n (mkPage n t l r) = acc ++ [(n, mkPage n t l r)] :=
        upsertEntry_of_not_mem acc n _ (fun kv hkv => ne_of_lt (lt_of_le_of_lt (hacc kv hkv) hlt))
      have hacc' : ∀ kv ∈ acc ++ [(n, mkPage n t l r)], kv.1 ≤ n := by
        intro kv hkv
        rcases List.mem_append.mp hkv with hkv | hkv
        · exact le_of_lt (lt_of_le_of_lt (hacc kv hkv) hlt)
        · simp at hkv; simp [hkv]
      obtain ⟨es, h1, h2, h3, h4⟩ :=
        mergeStatusLoop_canonical rest n (idx + 1) (acc ++ [(n, mkPage n t l r)]) hrest
          (le_of_lt hn) hacc'
      refine ⟨(n, mkPage n t l r) :: es, ?_, ?_, ?_, ?_⟩
      · rw [hentry, hupsert, h1, List.append_assoc]
        rfl
      · simp [h2]
      · intro kv hkv
        rcases List.mem_cons.mp hkv with rfl | hkv
        · exact hlt
        · exact lt_trans hlt (h3 kv hkv)
      · exact List.pairwise_cons.mpr ⟨fun kv hkv => h3 kv hkv, h4⟩

end Mathpix

namespace Mathpix

/-- Merging one status page and one line page with the same `page_no`:
the line text wins when truthy, the STATUS latex wins when truthy. -/
theorem merge_single_page (n : Int) (hn : 0 < n) (t1 l1 r1 t2 l2 r2 : JValue) :
    merge_mathpix_pages [mkPage n t1 l1 r1] [mkPage n t2 l2 r2] =
      [mkPage n (pyOr t2 t1) (pyOr l1 l2) (mergedRawOf r2 r1)] := by
  have hstatus :
      mergeStatusLoop 0 [mkPage n t1 l1 r1] [] = [(n, mkPage n t1 l1 r1)] := by
    simp [mkPage, mergeStatusLoop, JValue.get, JValue.lookup, to_page_no_intCast n hn,
      upsertEntry]
  have hline :
      mergeLineLoop 0 [mkPage n t2 l2 r2] [(n, mkPage n t1 l1 r1)] =
        [(n, mkPage n (pyOr t2 t1) (pyOr l1 l2) (mergedRawOf r2 r1))] := by
    simp only [mergeLineLoop, mkPage]
    simp [JValue.get, JValue.lookup, to_page_no_intCast n hn, lookupEntry, objSet,
      setField, upsertEntry, mergeLineLoop]
  simp [merge_mathpix_pages, hstatus, hline, stableSort, stableInsert]

end Mathpix

/-- C2 counterexample: for a status page and a line page sharing `page_no = 1`
with non-empty latex on both sides (`"SL"` from the status source, `"LL"` from
the line source), the merged page's `extracted_latex` is the OLD status value
`"SL"`, not the newer line value `"LL"` required by the claim. -/
theorem claim_C2_counterexample :
    ((Mathpix.merge_mathpix_pages
        [Mathpix.mkPage 1 (.str "S".data) (.str "SL".data) .null]
        [Mathpix.mkPage 1 (.str "L".data) (.str "LL".data) .null]).map
        (fun p => p.get "extracted_latex".data)) = [.str "SL".data] ∧
    (JValue.str "SL".data) ≠ .str "LL".data := by
  constructor
  · rw [Mathpix.merge_single_page 1 (by norm_num)]
    decide
  · decide

/-- C2 (amended): `merge_pages` on a canonical ascending status-only page list
and an empty line list returns the status pages unchanged; and merging a
status page and a line page sharing the same `page_no`, `extracted_text`
prefers the newer line source, falling back to the status source when the
line value is empty, while `extracted_latex` prefers the OLDER status source,
falling back to the line source when the status value is empty (`pyOr a b`
is Python's `a or b`). -/
theorem claim_C2_merge_pages :
    (∀ sps : List JValue, Mathpix.canonicalPages 0 sps →
      Mathpix.merge_mathpix_pages sps [] = sps) ∧
    (∀ (n : Int), 0 < n → ∀ t1 l1 r1 t2 l2 r2 : JValue,
      Mathpix.merge_mathpix_pages [Mathpix.mkPage n t1 l1 r1] [Mathpix.mkPage n t2 l2 r2] =
        [Mathpix.mkPage n (pyOr t2 t1) (pyOr l1 l2) (Mathpix.mergedRawOf r2 r1)]) := by
  constructor
  · intro sps h
    obtain ⟨es, h1, h2, h3, h4⟩ :=
      Mathpix.mergeStatusLoop_canonical sps 0 0 [] h le_rfl (by simp)
    have hsorted : List.Pairwise
        (fun a b : Int × JValue => decide (a.1 ≤ b.1) = true) es :=
      h4.imp (fun hab => by simpa using le_of_lt hab)
    simp only [Mathpix.merge_mathpix_pages, Mathpix.mergeLineLoop, h1, List.nil_append]
    rw [Mathpix.stableSort_pairwise_id _ es hsorted, h2]
  · intro n hn t1 l1 r1 t2 l2 r2
    exact Mathpix.merge_single_page n hn t1 l1 r1 t2 l2 r2

/-- Witness for C2 (amended): a concrete canonical status-only list passes
through unchanged, and a concrete shared-page merge keeps the line text and
the status latex. -/
theorem claim_C2_witness :
    Mathpix.merge_mathpix_pages [Mathpix.mkPage 1 (.str "S".data) .null .null] [] =
        [Mathpix.mkPage 1 (.str "S".data) .null .null] ∧
    Mathpix.merge_mathpix_pages
        [Mathpix.mkPage 2 (.str "S".data) (.str "SL".data) .null]
        [Mathpix.mkPage 2 (.str "L".data) (.str "LL".data) .null] =
      [Mathpix.mkPage 2
        (pyOr (.str "L".data) (.str "S".data))
        (pyOr (.str "SL".data) (.str "LL".data))
        (Mathpix.mergedRawOf .null .null)] :=
  ⟨claim_C2_merge_pages.1 [Mathpix.mkPage 1 (.str "S".data) .null .null]
      ⟨1, .str "S".data, .null, .null, by norm_num, rfl, trivial⟩,
    claim_C2_merge_pages.2 2 (by norm_num) _ _ _ _ _ _⟩

/-- C3 (spec-modelled poll loop; `src/` has only the single-shot sync
endpoint): with `max_polls = 3` and a status endpoint that never maps to
`completed`, the loop exhausts its bounded budget and yields a synthetic
`failed` status with progress 0 and a timeout message naming the 3 polls —
a terminal outcome, not a silent success. -/
theorem claim_C3_poll_timeout
    (fetchStatus : Nat → JValue) (fetchLines : Nat → Option JValue)
    (h : ∀ i, i < 3 →
      (Mathpix.map_mathpix_job_status (fetchStatus i)).1 ≠ "completed".data) :
    Mathpix.poll_until_completed fetchStatus fetchLines 3 =
      ("failed".data, 0, .str (Mathpix.pollTimeoutMessage 3), .null, []) ∧
    pyContains (Mathpix.pollTimeoutMessage 3) "timeout after 3 polls".data = true := by
  constructor
  · simp only [Mathpix.poll_until_completed, Mathpix.pollLoop,
      if_neg (h 0 (by norm_num)), if_neg (h 1 (by norm_num)), if_neg (h 2 (by norm_num))]
  · decide

/-- Witness for C3: a provider stuck on `status: "processing"` times out after
3 polls with the synthetic failure. -/
theorem claim_C3_witness :
    Mathpix.poll_until_completed
        (fun _ => .obj [("status".data, .str "processing".data)]) (fun _ => none) 3 =
      ("failed".data, 0, .str (Mathpix.pollTimeoutMessage 3), .null, []) :=
  (claim_C3_poll_timeout
    (fun _ => .obj [("status".data, .str "processing".data)]) (fun _ => none)
    (fun _ _ =>
      (by decide :
        (Mathpix.map_mathpix_job_status
          (.obj [("status".data, .str "processing".data)])).1 ≠ "completed".data))).1

/-! ## `app/services/ai_classifier.py`: geometry and asset-hint collection -/

namespace AIClassifier

/-- `str(node.get(key) or "").strip().lower()`. -/
def strFieldLower (node : JValue) (key : PStr) : PStr :=
  pyLower (pyStrip (pyStrOf (pyOr (node.get key) (.str []))))

def keysSubset (fields : List (PStr × JValue)) (keys : List PStr) : Bool :=
  keys.all fun k => (JValue.lookup fields k).isSome

/-- `_to_bbox_xyxy(bbox)`: dict encodings in fixed order
(`x1y1x2y2`, `left/top/right/bottom`, `xywh`, `x/y/width/height`), then
4-number lists, then ≥3-point polygons; any coercion failure inside the
selected encoding yields `None`. -/
def to_bbox_xyxy (bbox : JValue) : Option (ℚ × ℚ × ℚ × ℚ) :=
  match bbox with
  | .obj fields =>
      let d := JValue.obj fields
      if keysSubset fields ["x1".data, "y1".data, "x2".data, "y2".data] then
        match pyFloatOfJ (d.get "x1".data), pyFloatOfJ (d.get "y1".data),
            pyFloatOfJ (d.get "x2".data), pyFloatOfJ (d.get "y2".data) with
        | some a, some b, some c, some e => some (a, b, c, e)
        | _, _, _, _ => none
      else if keysSubset fields ["left".data, "top".data, "right".data, "bottom".data] then
        match pyFloatOfJ (d.get "left".data), pyFloatOfJ (d.get "top".data),
            pyFloatOfJ (d.get "right".data), pyFloatOfJ (d.get "bottom".data) with
        | some a, some b, some c, some e => some (a, b, c, e)
        | _, _, _, _ => none
      else if keysSubset fields ["x".data, "y".data, "w".data, "h".data] then
        match pyFloatOfJ (d.get "x".data), pyFloatOfJ (d.get "y".data),
            pyFloatOfJ (d.get "w".data), pyFloatOfJ (d.get "h".data) with
        | some x, some y, some w, some h => some (x, y, x + w, y + h)
        | _, _, _, _ => none
      else if keysSubset fields ["x".data, "y".data, "width".data, "height".data] then
        match pyFloatOfJ (d.get "x".data), pyFloatOfJ (d.get "y".data),
            pyFloatOfJ (d.get "width".data), pyFloatOfJ (d.get "height".data) with
        | some x, some y, some w, some h => some (x, y, x + w, y + h)
        | _, _, _, _ => none
      else none
  | .arr items =>
      if items.length = 4 ∧ items.all (fun it => it.isNum || match it with
          | .bool _ => true
          | _ => false) then
        match items with
        | [a, b, c, e] =>
            match pyFloatOfJ a, pyFloatOfJ b, pyFloatOfJ c, pyFloatOfJ e with
            | some a, some b, some c, some e => some (a, b, c, e)
            | _, _, _, _ => none
        | _ => none
      else if items.length ≥ 3 ∧ items.all (fun it => match it with
          | .arr pt => pt.length ≥ 2
          | _ => false) then
        match pointCoords items with
        | some pts =>
            match pts with
            | [] => none
            | (x, y) :: rest =>
                some (rest.foldl (fun acc p => min acc p.1) x,
                      rest.foldl (fun acc p => min acc p.2) y,
                      rest.foldl (fun acc p => max acc p.1) x,
                      rest.foldl (fun acc p => max acc p.2) y)
        | none => none
      else none
  | _ => none
where
  pointCoords : List JValue → Option (List (ℚ × ℚ))
    | [] => some []
    | .arr (a :: b :: _) :: rest =>
        match pyFloatOfJ a, pyFloatOfJ b, pointCoords rest with
        | some x, some y, some ps => some ((x, y) :: ps)
        | _, _, _ => none
    | _ :: _ => none

/-- `_bbox_area`. -/
def bbox_area (r : ℚ × ℚ × ℚ × ℚ) : ℚ :=
  max 0 (r.2.2.1 - r.1) * max 0 (r.2.2.2 - r.2.1)

/-- `_bbox_intersection_area`. -/
def bbox_intersection_area (l r : ℚ × ℚ × ℚ × ℚ) : ℚ :=
  bbox_area (max l.1 r.1, max l.2.1 r.2.1, min l.2.2.1 r.2.2.1, min l.2.2.2 r.2.2.2)

/-- `_to_positive_float`. -/
def to_positive_float (v : JValue) : Option ℚ :=
  match pyFloatOfJ v with
  | some q => if q > 0 then some q else none
  | none => none

/-- The `lines`-scanning part of `_resolve_source_dimensions`. -/
def resolveDimsFromLines : List JValue → Option (ℚ × ℚ)
  | [] => none
  | node :: rest =>
      match node with
      | .obj fields =>
          let n := JValue.obj fields
          if strFieldLower n "type".data = "page_info".data then
            match n.get "region".data with
            | .obj rf =>
                let region := JValue.obj rf
                match to_positive_float (region.get "width".data),
                    to_positive_float (region.get "height".data) with
                | some w, some h => some (w, h)
                | _, _ => nodeDims n rest
            | _ => nodeDims n rest
          else resolveDimsFromLines rest
      | _ => resolveDimsFromLines rest
where
  nodeDims (n : JValue) (rest : List JValue) : Option (ℚ × ℚ) :=
    match to_positive_float (pyOr (n.get "page_width".data) (n.get "width".data)),
        to_positive_float (pyOr (n.get "page_height".data) (n.get "height".data)) with
    | some w, some h => some (w, h)
    | _, _ => resolveDimsFromLines rest

/-- `_resolve_source_dimensions(payload)` (ai_classifier version). -/
def resolve_source_dimensions (payload : JValue) : Option (ℚ × ℚ) :=
  match to_positive_float (payload.get "page_width".data),
      to_positive_float (payload.get "page_height".data) with
  | some w, some h => some (w, h)
  | _, _ =>
    let fromInfo :=
      match payload.get "page_info".data with
      | .obj pf =>
          let info := JValue.obj pf
          match to_positive_float (pyOr (info.get "width".data) (info.get "page_width".data)),
              to_positive_float (pyOr (info.get "height".data) (info.get "page_height".data)) with
          | some w, some h => some (w, h)
          | _, _ => none
      | _ => none
    match fromInfo with
    | some wh => some wh
    | none =>
        match payload.get "lines".data with
        | .arr lines => resolveDimsFromLines lines
        | _ => none

/-- `TEXT_ASSET_KEYWORDS`, in dict order (image, graph, table). -/
def textAssetKeywords : List (PStr × List PStr) :=
  [("image".data, ["그림".data, "도형".data, "diagram".data, "figure".data,
      "image".data, "사진".data]),
   ("graph".data, ["그래프".data, "좌표평면".data, "좌표축".data, "plot".data,
      "graph".data, "chart".data, "곡선".data]),
   ("table".data, ["표".data, "table".data, "tabular".data, "도수분포표".data])]

/-- `TEXT_ASSET_KEYWORDS["graph"]`. -/
def graphTextKeywords : List PStr :=
  ["그래프".data, "좌표평면".data, "좌표축".data, "plot".data, "graph".data,
    "chart".data, "곡선".data]

/-- `PAYLOAD_ASSET_TOKENS`, in dict order (image, graph, table). -/
def payloadImageTokens : List PStr :=
  ["image".data, "figure".data, "diagram".data, "img".data, "picture".data]

def payloadGraphTokens : List PStr :=
  ["graph".data, "plot".data, "chart".data, "axis".data, "coordinate".data,
    "x_axis_label".data, "y_axis_label".data, "x_axis_tick_label".data,
    "y_axis_tick_label".data, "legend_label".data, "chart_info".data]

def payloadTableTokens : List PStr :=
  ["table".data, "tabular".data, "grid".data]

def payloadAssetTokens : List (PStr × List PStr) :=
  [("image".data, payloadImageTokens),
   ("graph".data, payloadGraphTokens),
   ("table".data, payloadTableTokens)]

/-- `GRAPH_NODE_TYPES`. -/
def graphNodeTypes : List PStr :=
  ["chart".data, "chart_info".data, "x_axis_label".data, "y_axis_label".data,
    "x_axis_tick_label".data, "y_axis_tick_label".data, "legend_label".data,
    "model_label".data]

/-- `GRAPH_DIAGRAM_SUBTYPES`. -/
def graphDiagramSubtypes : List PStr :=
  ["line".data, "scatter".data, "bar".data, "column".data, "area".data,
    "pie".data, "analytical".data]

/-- `VISUAL_NODE_TYPES`. -/
def visualNodeTypes : List PStr :=
  ["image".data, "figure".data, "picture".data, "diagram".data, "chart".data,
    "graph".data, "axis".data, "plot".data, "table".data, "table_cell".data,
    "tabular".data, "grid".data]

/-- `_collect_node_tokens(node)`. -/
def collect_node_tokens (node : JValue) : List PStr :=
  ((["type".data, "subtype".data, "kind".data, "class".data, "label".data,
      "name".data, "category".data]).filterMap fun k =>
    match node.get k with
    | .str s => if pyStrip s ≠ [] then some (pyLower (pyStrip s)) else none
    | _ => none).take 6

/-- `_infer_asset_type_from_node(node)`. -/
def infer_asset_type_from_node (node : JValue) : Option PStr :=
  let node_type := strFieldLower node "type".data
  let node_subtype := strFieldLower node "subtype".data
  if graphNodeTypes.contains node_type then some "graph".data
  else if node_type = "diagram".data ∧ graphDiagramSubtypes.contains node_subtype then
    some "graph".data
  else
    let tokens := collect_node_tokens node
    let combined := pyJoin [' '] tokens
    if combined = [] then none
    else if payloadGraphTokens.any (fun tk => pyContains combined tk) then some "graph".data
    else if payloadTableTokens.any (fun tk => pyContains combined tk) then some "table".data
    else if payloadImageTokens.any (fun tk => pyContains combined tk) then some "image".data
    else none

/-- `_bbox_dict_from_xyxy(xyxy, source_dimensions=...)`. -/
def bbox_dict_from_xyxy (r : ℚ × ℚ × ℚ × ℚ) (source_dimensions : Option (ℚ × ℚ)) : JValue :=
  let base := [("x1".data, JValue.num r.1), ("y1".data, JValue.num r.2.1),
               ("x2".data, JValue.num r.2.2.1), ("y2".data, JValue.num r.2.2.2)]
  match source_dimensions with
  | some (w, h) =>
      if w > 0 ∧ h > 0 then
        .obj (base ++ [("source_page_width".data, JValue.num w),
                       ("source_page_height".data, JValue.num h)])
      else .obj base
  | none => .obj base

/-- The `region` rectangle branch of `_extract_bbox` (a coercion failure
falls through to `none`). -/
def fromRegionOf (node : JValue) (source_dimensions : Option (ℚ × ℚ)) : Option JValue :=
  match node.get "region".data with
  | .obj rf =>
      let region := JValue.obj rf
      let width := region.get "width".data
      let height := region.get "height".data
      let top_left_x := region.get "top_left_x".data
      let top_left_y := region.get "top_left_y".data
      if width ≠ .null ∧ height ≠ .null ∧ top_left_x ≠ .null ∧ top_left_y ≠ .null then
        match pyFloatOfJ top_left_x, pyFloatOfJ top_left_y,
            pyFloatOfJ width, pyFloatOfJ height with
        | some x1, some y1, some w, some h =>
            some (bbox_dict_from_xyxy (x1, y1, x1 + w, y1 + h) source_dimensions)
        | _, _, _, _ => none
      else none
  | _ => none

/-- `_extract_bbox(node, source_dimensions=...)`: `bbox`/`cnt` keys, then a
`region` rectangle, then the node itself as a bbox dict. -/
def extract_bbox (node : JValue) (source_dimensions : Option (ℚ × ℚ)) : Option JValue :=
  match to_bbox_xyxy (node.get "bbox".data) with
  | some r => some (bbox_dict_from_xyxy r source_dimensions)
  | none =>
    match to_bbox_xyxy (node.get "cnt".data) with
    | some r => some (bbox_dict_from_xyxy r source_dimensions)
    | none =>
      match fromRegionOf node source_dimensions with
      | some b => some b
      | none =>
          match to_bbox_xyxy node with
          | some r => some (bbox_dict_from_xyxy r source_dimensions)
          | none => none

/-- A hint dict as built throughout `ai_classifier.py`. -/
def mkHint (asset_type source : PStr) (bbox : Option JValue) (evidence : List PStr) : JValue :=
  .obj [("asset_type".data, .str asset_type), ("source".data, .str source),
        ("bbox".data, bbox.getD .null), ("evidence".data, .arr (evidence.map .str))]

/-- `_collect_payload_asset_hints` at depths ≥ 1 (`fuel = 7 - depth`: the
source guards `depth > 6` and recurses with `depth + 1`, so fuel 0 is the
guarded depth 7 and the `depth == 0` resolution step never fires here). -/
def collectPayloadHintsAux : Nat → JValue → Option (ℚ × ℚ) → List JValue
  | 0, _, _ => []
  | _ + 1, .null, _ => []
  | _ + 1, .bool _, _ => []
  | _ + 1, .num _, _ => []
  | _ + 1, .str _, _ => []
  | fuel + 1, .arr items, sd =>
      (items.map fun it => collectPayloadHintsAux fuel it sd).flatten
  | fuel + 1, .obj fields, sd =>
      let node := JValue.obj fields
      (match infer_asset_type_from_node node with
       | some t =>
           [mkHint t "raw_payload_node".data (extract_bbox node sd) (collect_node_tokens node)]
       | none => []) ++
      (fields.map fun kv => collectPayloadHintsAux fuel kv.2 sd).flatten

/-- `_collect_payload_asset_hints(payload, 0, source_dimensions)` (the
`depth == 0` entry, which resolves missing source dimensions for a dict). -/
def collect_payload_asset_hints (payload : JValue) (sd0 : Option (ℚ × ℚ)) : List JValue :=
  match payload with
  | .obj fields =>
      let sd := if sd0.isNone then resolve_source_dimensions (.obj fields) else sd0
      let node := JValue.obj fields
      (match infer_asset_type_from_node node with
       | some t =>
           [mkHint t "raw_payload_node".data (extract_bbox node sd) (collect_node_tokens node)]
       | none => []) ++
      (fields.map fun kv => collectPayloadHintsAux 6 kv.2 sd).flatten
  | .arr items => (items.map fun it => collectPayloadHintsAux 6 it sd0).flatten
  | _ => []

/-- `_collect_payload_text_hints(payload)`. -/
def collect_payload_text_hints (payload : JValue) : List JValue :=
  let serialized := pyLower (jsonDumps payload)
  payloadAssetTokens.filterMap fun (asset_type, tokens) =>
    let matched := tokens.filter fun tk => pyContains serialized tk
    if matched ≠ [] then
      some (mkHint asset_type "raw_payload_text".data none (matched.take 5))
    else none

/-- `_filter_asset_hints_by_candidate_bbox(hints, candidate_bbox)`. -/
def filter_asset_hints_by_candidate_bbox (hints : List JValue) (candidate_bbox : JValue) :
    List JValue :=
  match to_bbox_xyxy candidate_bbox with
  | none => hints
  | some c =>
      hints.filter fun hint =>
        match to_bbox_xyxy (hint.get "bbox".data) with
        | none => false
        | some hx =>
            let overlap := bbox_intersection_area c hx
            if overlap ≤ 0 then false
            else
              let hint_area := bbox_area hx
              if hint_area ≤ 0 then false
              else decide (overlap / hint_area ≥ 0.15)

/-- Allowed asset types; anything else normalizes to `other`. -/
def allowedAssetTypes : List PStr :=
  ["image".data, "table".data, "graph".data, "other".data]

/-- Normalized asset type of a hint, as in `_dedupe_asset_hints`. -/
def dedupAssetTypeOf (hint : JValue) : PStr :=
  let t := pyLower (pyStrip (pyStrOf (pyOr (hint.get "asset_type".data) (.str "other".data))))
  if allowedAssetTypes.contains t then t else "other".data

/-- Normalized source of a hint, as in `_dedupe_asset_hints`. -/
def dedupSourceOf (hint : JValue) : PStr :=
  pyLower (pyStrip (pyStrOf (pyOr (hint.get "source".data) (.str "unknown".data))))

/-- Sorted evidence key, as in `_dedupe_asset_hints`. -/
def dedupEvidenceOf (hint : JValue) : List PStr :=
  match hint.get "evidence".data with
  | .arr items => stableSort pstrLe (items.map pyStrOf)
  | _ => []

/-- Serialized bbox key, as in `_dedupe_asset_hints`. -/
def dedupBboxKeyOf (hint : JValue) : PStr :=
  match hint.get "bbox".data with
  | .obj f => jsonDumpsSorted (.obj f)
  | _ => []

/-- The dedup key `(asset_type, source, bbox_key, evidence_key)`. -/
def dedupKeyOf (hint : JValue) : PStr × PStr × PStr × List PStr :=
  (dedupAssetTypeOf hint, dedupSourceOf hint, dedupBboxKeyOf hint, dedupEvidenceOf hint)

/-- The canonical dict `_dedupe_asset_hints` emits for a kept hint. -/
def canonicalHintOf (hint : JValue) : JValue :=
  .obj [("asset_type".data, .str (dedupAssetTypeOf hint)),
        ("source".data, .str (dedupSourceOf hint)),
        ("bbox".data, match hint.get "bbox".data with
          | .obj f => .obj f
          | _ => .null),
        ("evidence".data, .arr ((dedupEvidenceOf hint).map .str))]

def dedupeLoop : List JValue → List (PStr × PStr × PStr × List PStr) → List JValue
  | [], _ => []
  | hint :: rest, seen =>
      let key := dedupKeyOf hint
      if seen.contains key then dedupeLoop rest seen
      else canonicalHintOf hint :: dedupeLoop rest (key :: seen)

/-- `_dedupe_asset_hints(hints)`. -/
def dedupe_asset_hints (hints : List JValue) : List JValue := dedupeLoop hints []

/-- The trailing graph fallback of `collect_problem_asset_hints`: when the
statement text implies a graph but no graph hint was collected, synthesize one
anchored at the candidate bbox. -/
def withGraphFallback (hints : List JValue) (normalized : PStr)
    (resolved_candidate_bbox : Option JValue) : List JValue :=
  match resolved_candidate_bbox with
  | some c =>
      if graphTextKeywords.any (fun k => pyContains normalized (pyLower k)) ∧
          ¬ hints.any (fun h => pyStrOf (h.get "asset_type".data) = "graph".data) then
        hints ++
          [mkHint "graph".data "statement_text_bbox_fallback".data (some c)
            ["keyword_graph".data]]
      else hints
  | none => hints

/-- The `statement_hints` block of `collect_problem_asset_hints`: one hint
per keyword group that matches the normalized statement text. -/
def statementHintsOf (normalized : PStr) (resolved_candidate_bbox : Option JValue) :
    List JValue :=
  if normalized ≠ [] then
    textAssetKeywords.filterMap fun tk =>
      let matched := tk.2.filter fun k => pyContains normalized (pyLower k)
      if matched ≠ [] then
        some (mkHint tk.1 "statement_text".data resolved_candidate_bbox matched)
      else none
  else []

/-- The `payload_hints` block of `collect_problem_asset_hints`: payload node
hints, filtered against the candidate bbox when one is supplied (Python's
`if resolved_candidate_bbox:` is the dict's truthiness). -/
def payloadHintsOf (payload : JValue) (source_dimensions : Option (ℚ × ℚ))
    (resolved_candidate_bbox : Option JValue) : List JValue :=
  let ph := collect_payload_asset_hints payload source_dimensions
  match resolved_candidate_bbox with
  | some c => if c.truthy then filter_asset_hints_by_candidate_bbox ph c else ph
  | none => ph

/-- The dict-payload branch of `collect_problem_asset_hints`, up to the
graph fallback and dedup. -/
def dictHintsOf (normalized : PStr) (resolved_candidate_bbox : Option JValue)
    (payload : JValue) (source_dimensions : Option (ℚ × ℚ)) : List JValue :=
  let payload_hints := payloadHintsOf payload source_dimensions resolved_candidate_bbox
  let precise_payload_types :=
    (payload_hints.filter fun h => (h.get "bbox".data).isObj).map fun h =>
      pyLower (pyStrip (pyStrOf (h.get "asset_type".data)))
  let statement_hints :=
    if precise_payload_types ≠ [] then
      (statementHintsOf normalized resolved_candidate_bbox).filter fun h =>
        ¬ precise_payload_types.contains (pyLower (pyStrip (pyStrOf (h.get "asset_type".data))))
    else statementHintsOf normalized resolved_candidate_bbox
  let hints := payload_hints ++ statement_hints
  if resolved_candidate_bbox.isNone ∧ payload_hints = [] then
    hints ++ collect_payload_text_hints payload
  else hints

/-- `collect_problem_asset_hints(statement_text, page_raw_payload,
candidate_bbox=...)`. -/
def collect_problem_asset_hints (statement_text : PStr) (page_raw_payload : Option JValue)
    (candidate_bbox : Option JValue) : List JValue :=
  let normalized := pyLower (pyStrip statement_text)
  let resolved_candidate_bbox : Option JValue :=
    match candidate_bbox with
    | some (.obj f) => some (.obj f)
    | _ => none
  let source_dimensions : Option (ℚ × ℚ) :=
    match page_raw_payload with
    | some (.obj f) => resolve_source_dimensions (.obj f)
    | _ => none
  match page_raw_payload with
  | some (.obj pf) =>
      dedupe_asset_hints
        (withGraphFallback
          (dictHintsOf normalized resolved_candidate_bbox (.obj pf) source_dimensions)
          normalized resolved_candidate_bbox)
  | _ =>
      dedupe_asset_hints
        (withGraphFallback (statementHintsOf normalized resolved_candidate_bbox)
          normalized resolved_candidate_bbox)

end AIClassifier

/-! ## `app/services/problem_asset_extractor.py` -/

namespace AssetExtractor

/-- `_to_positive_float` (extractor copy). -/
def to_positive_float (v : JValue) : Option ℚ :=
  match pyFloatOfJ v with
  | some q => if q > 0 then some q else none
  | none => none

/-- `_to_xyxy(bbox)` (extractor parser): ratio keys first, then `x1y1x2y2`,
`left/top/right/bottom`, `xywh`, `x/y/width/height`; dict-only. -/
def to_xyxy (bbox : JValue) : Option (ℚ × ℚ × ℚ × ℚ) :=
  match bbox with
  | .obj fields =>
      let d := JValue.obj fields
      if AIClassifier.keysSubset fields
          ["x0_ratio".data, "y0_ratio".data, "x1_ratio".data, "y1_ratio".data] then
        match pyFloatOfJ (d.get "x0_ratio".data), pyFloatOfJ (d.get "y0_ratio".data),
            pyFloatOfJ (d.get "x1_ratio".data), pyFloatOfJ (d.get "y1_ratio".data) with
        | some a, some b, some c, some e => some (a, b, c, e)
        | _, _, _, _ => none
      else if AIClassifier.keysSubset fields ["x1".data, "y1".data, "x2".data, "y2".data] then
        match pyFloatOfJ (d.get "x1".data), pyFloatOfJ (d.get "y1".data),
            pyFloatOfJ (d.get "x2".data), pyFloatOfJ (d.get "y2".data) with
        | some a, some b, some c, some e => some (a, b, c, e)
        | _, _, _, _ => none
      else if AIClassifier.keysSubset fields
          ["left".data, "top".data, "right".data, "bottom".data] then
        match pyFloatOfJ (d.get "left".data), pyFloatOfJ (d.get "top".data),
            pyFloatOfJ (d.get "right".data), pyFloatOfJ (d.get "bottom".data) with
        | some a, some b, some c, some e => some (a, b, c, e)
        | _, _, _, _ => none
      else if AIClassifier.keysSubset fields ["x".data, "y".data, "w".data, "h".data] then
        match pyFloatOfJ (d.get "x".data), pyFloatOfJ (d.get "y".data),
            pyFloatOfJ (d.get "w".data), pyFloatOfJ (d.get "h".data) with
        | some x, some y, some w, some h => some (x, y, x + w, y + h)
        | _, _, _, _ => none
      else if AIClassifier.keysSubset fields
          ["x".data, "y".data, "width".data, "height".data] then
        match pyFloatOfJ (d.get "x".data), pyFloatOfJ (d.get "y".data),
            pyFloatOfJ (d.get "width".data), pyFloatOfJ (d.get "height".data) with
        | some x, some y, some w, some h => some (x, y, x + w, y + h)
        | _, _, _, _ => none
      else none
  | _ => none

/-- `_resolve_source_dimensions(bbox)` (extractor copy: reads the bbox's own
declared source page size). -/
def resolve_source_dimensions (bbox : JValue) : Option (ℚ × ℚ) :=
  let source_w := to_positive_float
    (pyOr (bbox.get "source_page_width".data)
      (pyOr (bbox.get "page_width".data) (bbox.get "source_width".data)))
  let source_h := to_positive_float
    (pyOr (bbox.get "source_page_height".data)
      (pyOr (bbox.get "page_height".data) (bbox.get "source_height".data)))
  match source_w, source_h with
  | some w, some h => some (w, h)
  | _, _ => none

/-- `_resolve_crop_profile(asset_type)`:
`(pad_ratio, min_pad, min_crop_w, min_crop_h)`. -/
def resolve_crop_profile (asset_type : PStr) : ℚ × ℚ × ℚ × ℚ :=
  let normalized := pyLower (pyStrip asset_type)
  if normalized = "graph".data then (0.18, 14, 120, 120)
  else if normalized = "table".data then (0.1, 10, 72, 72)
  else if normalized = "image".data then (0.08, 8, 64, 64)
  else (0.06, 6, 56, 56)

/-- One axis of `_enforce_min_crop_size`: the function body consists of two
copies of the same block, one for x (clamped to `page_w`) and one for y
(clamped to `page_h`); this helper is that block with `lo/hi/bound/minSize`
in place of `x0/x1/page_w/min_width` resp. `y0/y1/page_h/min_height`. -/
def enforceAxis (lo hi bound minSize : ℚ) : ℚ × ℚ :=
  let width := hi - lo
  if width < minSize then
    let grow := (minSize - width) / 2
    let lo := max 0 (lo - grow)
    let hi := min bound (hi + grow)
    let width := hi - lo
    if width < minSize then
      if lo ≤ 0 then (lo, min bound (lo + minSize))
      else if hi ≥ bound then (max 0 (hi - minSize), hi)
      else (lo, hi)
    else (lo, hi)
  else (lo, hi)

/-- `_enforce_min_crop_size(...)`: symmetric growth clamped to the page, with
one-sided growth when a side is pinned at the page edge. -/
def enforce_min_crop_size (x0 y0 x1 y1 page_w page_h min_width min_height : ℚ) :
    ℚ × ℚ × ℚ × ℚ :=
  let xs := enforceAxis x0 x1 page_w min_width
  let ys := enforceAxis y0 y1 page_h min_height
  (xs.1, ys.1, xs.2, ys.2)

/-- Python `round(x, 6)` (round-half-to-even). -/
def roundHalfEven (q : ℚ) : Int :=
  let f := ⌊q⌋
  let r := q - f
  if r < 1 / 2 then f
  else if 1 / 2 < r then f + 1
  else if f % 2 = 0 then f else f + 1

def round6 (q : ℚ) : ℚ := (roundHalfEven (q * 1000000) : ℚ) / 1000000

/-- The coordinate-space normalization block of `_resolve_clip_rect`: ratio
bboxes scale by the page size; declared source dimensions scale by
`page/source` per axis; and coordinates far beyond the page (>1.8×) are
heuristically rescaled as pixel space. -/
def normalizeCoords (page_w page_h : ℚ) (bbox : JValue) (x0 y0 x1 y1 : ℚ) :
    ℚ × ℚ × ℚ × ℚ :=
  if 0 ≤ x0 ∧ x0 ≤ 1 ∧ 0 ≤ y0 ∧ y0 ≤ 1 ∧ 0 ≤ x1 ∧ x1 ≤ 1 ∧ 0 ≤ y1 ∧ y1 ≤ 1 then
    (x0 * page_w, y0 * page_h, x1 * page_w, y1 * page_h)
  else
    match resolve_source_dimensions bbox with
    | some (source_w, source_h) =>
        let scale_x := page_w / source_w
        let scale_y := page_h / source_h
        (x0 * scale_x, y0 * scale_y, x1 * scale_x, y1 * scale_y)
    | none =>
        if x1 > page_w * 1.8 ∨ y1 > page_h * 1.8 then
          let scale_x := page_w / max x1 page_w
          let scale_y := page_h / max y1 page_h
          (x0 * scale_x, y0 * scale_y, x1 * scale_x, y1 * scale_y)
        else (x0, y0, x1, y1)

/-- Body of `_resolve_clip_rect` after bbox parsing, for a parsed rectangle
`(x0, y0, x1, y1)` (split out of `resolve_clip_rect` to keep the parse match
separate; `bbox` is still consulted for its declared source dimensions). -/
def resolveClipRectCore (page_w page_h : ℚ) (bbox : JValue) (asset_type : PStr)
    (x0 y0 x1 y1 : ℚ) : Option ((ℚ × ℚ × ℚ × ℚ) × JValue) :=
  if x1 ≤ x0 ∨ y1 ≤ y0 then none
  else
    let coords := normalizeCoords page_w page_h bbox x0 y0 x1 y1
    let x0 := coords.1
    let y0 := coords.2.1
    let x1 := coords.2.2.1
    let y1 := coords.2.2.2
    let profile := resolve_crop_profile asset_type
    let pad_ratio := profile.1
    let min_pad := profile.2.1
    let min_crop_w := profile.2.2.1
    let min_crop_h := profile.2.2.2
    let pad_x := max min_pad ((x1 - x0) * pad_ratio)
    let pad_y := max min_pad ((y1 - y0) * pad_ratio)
    let x0 := max 0 (x0 - pad_x)
    let y0 := max 0 (y0 - pad_y)
    let x1 := min page_w (x1 + pad_x)
    let y1 := min page_h (y1 + pad_y)
    let e := enforce_min_crop_size x0 y0 x1 y1 page_w page_h min_crop_w min_crop_h
    let x0 := e.1
    let y0 := e.2.1
    let x1 := e.2.2.1
    let y1 := e.2.2.2
    if x1 ≤ x0 ∨ y1 ≤ y0 then none
    else
      some ((x0, y0, x1, y1),
        .obj [("x0_ratio".data, .num (round6 (x0 / page_w))),
              ("y0_ratio".data, .num (round6 (y0 / page_h))),
              ("x1_ratio".data, .num (round6 (x1 / page_w))),
              ("y1_ratio".data, .num (round6 (y1 / page_h)))])

/-- `_resolve_clip_rect(page=..., bbox=..., asset_type=...)`, with the page's
point-space rectangle passed as `(page_w, page_h)` (the only data read from
the PyMuPDF page object).  Returns the clip rectangle and the normalized
ratio bbox. -/
def resolve_clip_rect (page_w page_h : ℚ) (bbox : JValue) (asset_type : PStr) :
    Option ((ℚ × ℚ × ℚ × ℚ) × JValue) :=
  match bbox with
  | .obj _ =>
    match to_xyxy bbox with
    | none => none
    | some (x0, y0, x1, y1) => resolveClipRectCore page_w page_h bbox asset_type x0 y0 x1 y1
  | _ => none

/-- `str(hint.get("asset_type") or "other").strip().lower()`, the raw
asset-type normalization used in selection and extraction. -/
def rawHintType (hint : JValue) : PStr :=
  pyLower (pyStrip (pyStrOf (pyOr (hint.get "asset_type".data) (.str "other".data))))

/-- The clamped asset type (`other` when not in the allowed set). -/
def normHintType (hint : JValue) : PStr :=
  let t := rawHintType hint
  if AIClassifier.allowedAssetTypes.contains t then t else "other".data

/-- `_hint_rank_key(hint)`: `(has_bbox, source_priority, area)`. -/
def hint_rank_key (hint : JValue) : Nat × Nat × ℚ :=
  let source := pyLower (pyStrip (pyStrOf (pyOr (hint.get "source".data) (.str []))))
  let source_priority : Nat :=
    if source = "raw_payload_node".data then 4
    else if source = "statement_text_bbox_fallback".data then 3
    else if source = "statement_text".data then 2
    else if source = "raw_payload_text".data then 1
    else 0
  let xyxy :=
    match hint.get "bbox".data with
    | .obj f => to_xyxy (.obj f)
    | _ => none
  match xyxy with
  | none => (0, source_priority, 0)
  | some (x0, y0, x1, y1) => (1, source_priority, max 0 (x1 - x0) * max 0 (y1 - y0))

/-- Lexicographic order on rank keys, as Python tuple comparison. -/
def rankLe (a b : Nat × Nat × ℚ) : Bool :=
  decide (a.1 < b.1) ||
    (decide (a.1 = b.1) &&
      (decide (a.2.1 < b.2.1) ||
        (decide (a.2.1 = b.2.1) && decide (a.2.2 ≤ b.2.2))))

/-- The greedy selection loop of `_select_asset_hints`: walk the ranked hints,
skip a hint when its type already has 2 picks, stop at 6 total. -/
def selectLoop : List JValue → List JValue → (PStr → Nat) → List JValue
  | [], selected, _ => selected
  | hint :: rest, selected, counts =>
      let asset_type := rawHintType hint
      if counts asset_type ≥ 2 then selectLoop rest selected counts
      else
        let selected := selected ++ [hint]
        let counts := fun s => if s = asset_type then counts asset_type + 1 else counts s
        if selected.length ≥ 6 then selected else selectLoop rest selected counts

/-- `_select_asset_hints(asset_hints)`. -/
def select_asset_hints (asset_hints : List JValue) : List JValue :=
  if asset_hints = [] then []
  else
    let normalized_hints := asset_hints.filterMap fun h =>
      match h with
      | .obj f => some (Mathpix.objSet (.obj f) "asset_type".data (.str (normHintType (.obj f))))
      | _ => none
    if normalized_hints = [] then []
    else
      let ranked_hints :=
        stableSort (fun a b => rankLe (hint_rank_key b) (hint_rank_key a)) normalized_hints
      selectLoop ranked_hints [] (fun _ => 0)

/-- `render_clip_png(...)`.  The opened document is `pages` (one point-space
rectangle per page), `available` models `is_available`, and
`pixmapBytes scale idx rect` is the PyMuPDF rasterization oracle (`[]` models
an empty render). -/
def render_clip_png (available : Bool) (pages : List (ℚ × ℚ))
    (pixmapBytes : ℚ → Nat → (ℚ × ℚ × ℚ × ℚ) → PStr)
    (page_no : Int) (bbox : JValue) (asset_type : PStr) (render_scale : ℚ) :
    Option (PStr × JValue) :=
  if ¬ available ∨ page_no ≤ 0 then none
  else
    let page_index := (page_no - 1).toNat
    match pages[page_index]? with
    | none => none
    | some (page_w, page_h) =>
        match resolve_clip_rect page_w page_h bbox asset_type with
        | none => none
        | some (clip_rect, normalized_bbox) =>
            let body := pixmapBytes render_scale page_index clip_rect
            if body = [] then none else some (body, normalized_bbox)

/-- Zero-padded decimal rendering, as Python `f"{n:0Nd}"`. -/
def padInt (width : Nat) (n : Int) : PStr :=
  if n < 0 then
    '-' :: List.replicate (width - 1 - (natDigits n.natAbs).length) '0' ++ natDigits n.natAbs
  else List.replicate (width - (natDigits n.natAbs).length) '0' ++ natDigits n.natAbs

/-- `build_storage_key(bucket, key)` from `s3_storage.py`. -/
def build_storage_key (bucket key : PStr) : PStr :=
  "s3://".data ++ bucket ++ ['/'] ++ key

/-- The durable output of one rendered-and-uploaded hint. -/
structure ExtractedAsset where
  asset_type : PStr
  storage_key : PStr
  page_no : Int
  bbox : JValue
  metadata : JValue
  deriving DecidableEq

/-- One iteration of the `extract_and_upload` hint loop (`idx` enumerates
from 1): resolve the hint's own bbox, else fall back to the candidate bbox,
else skip; render; an empty render skips; a success uploads one PNG
(`put_object_bytes`, a write-only collaborator) and records one
`ExtractedAsset`. -/
def extractOne (available : Bool) (pages : List (ℚ × ℚ))
    (pixmapBytes : ℚ → Nat → (ℚ × ℚ × ℚ × ℚ) → PStr)
    (keyPrefixStr jobId bucket : PStr) (page_no candidate_no : Int)
    (external_problem_key : PStr) (candidate_bbox : Option JValue)
    (idx : Nat) (hint : JValue) : Option ExtractedAsset :=
  let asset_type := normHintType hint
  let render (rb : JValue) (bbox_source : PStr) : Option ExtractedAsset :=
    match render_clip_png available pages pixmapBytes page_no rb asset_type 2 with
    | none => none
    | some (_, normalized_bbox) =>
        let object_key :=
          keyPrefixStr ++ ['/'] ++ jobId ++ "/page-".data ++ padInt 4 page_no ++
            "/candidate-".data ++ padInt 3 candidate_no ++ ['/'] ++ padInt 2 idx ++
            ['-'] ++ asset_type ++ ".png".data
        some
          { asset_type := asset_type
            storage_key := build_storage_key bucket object_key
            page_no := page_no
            bbox := normalized_bbox
            metadata := .obj
              [("source_hint".data, hint.get "source".data),
               ("evidence".data, hint.get "evidence".data),
               ("bbox_source".data, .str bbox_source),
               ("external_problem_key".data, .str external_problem_key),
               ("render_scale".data, .num 2)] }
  match hint.get "bbox".data with
  | .obj f => render (.obj f) "hint".data
  | _ =>
      match candidate_bbox with
      | some (.obj f) => render (.obj f) "candidate_fallback".data
      | _ => none

/-- The per-hint loop of `extract_and_upload`. -/
def extractLoop (available : Bool) (pages : List (ℚ × ℚ))
    (pixmapBytes : ℚ → Nat → (ℚ × ℚ × ℚ × ℚ) → PStr)
    (keyPrefixStr jobId bucket : PStr) (page_no candidate_no : Int)
    (external_problem_key : PStr) (candidate_bbox : Option JValue) :
    Nat → List JValue → List ExtractedAsset
  | _, [] => []
  | idx, hint :: rest =>
      let skip := extractLoop available pages pixmapBytes keyPrefixStr jobId bucket
        page_no candidate_no external_problem_key candidate_bbox (idx + 1) rest
      match extractOne available pages pixmapBytes keyPrefixStr jobId bucket page_no
          candidate_no external_problem_key candidate_bbox idx hint with
      | none => skip
      | some asset => asset :: skip

/-- `ProblemAssetExtractor.extract_and_upload(...)`. -/
def extract_and_upload (available : Bool) (pages : List (ℚ × ℚ))
    (pixmapBytes : ℚ → Nat → (ℚ × ℚ × ℚ × ℚ) → PStr)
    (keyPrefixStr jobId bucket : PStr) (page_no candidate_no : Int)
    (external_problem_key : PStr) (asset_hints : List JValue)
    (candidate_bbox : Option JValue) : List ExtractedAsset :=
  if ¬ available ∨ page_no ≤ 0 then []
  else if pages.length ≤ (page_no - 1).toNat then []
  else
    let selected_hints := select_asset_hints asset_hints
    if selected_hints = [] then []
    else
      extractLoop available pages pixmapBytes keyPrefixStr jobId bucket page_no candidate_no
        external_problem_key candidate_bbox 1 selected_hints

end AssetExtractor

namespace AssetExtractor

/-- Number of extracted assets of one asset type. -/
def assetTypeCount (t : PStr) (assets : List ExtractedAsset) : Nat :=
  (assets.filter fun a => a.asset_type = t).length

/-- Number of hints whose raw normalized type is `t`. -/
def hintTypeCountRaw (t : PStr) (hints : List JValue) : Nat :=
  (hints.filter fun h => rawHintType h = t).length

/-- Number of hints whose clamped type is `t`. -/
def hintTypeCountNorm (t : PStr) (hints : List JValue) : Nat :=
  (hints.filter fun h => normHintType h = t).length

theorem extractOne_type (available : Bool) (pages : List (ℚ × ℚ))
    (pixmapBytes : ℚ → Nat → (ℚ × ℚ × ℚ × ℚ) → PStr)
    (keyPrefixStr jobId bucket : PStr) (page_no candidate_no : Int)
    (external_problem_key : PStr) (candidate_bbox : Option JValue)
    (idx : Nat) (hint : JValue) (asset : ExtractedAsset)
    (h : extractOne available pages pixmapBytes keyPrefixStr jobId bucket page_no
      candidate_no external_problem_key candidate_bbox idx hint = some asset) :
    asset.asset_type = normHintType hint := by
  simp only [extractOne] at h
  split at h <;> [skip; split at h] <;>
    first
      | (split at h
         · exact absurd h (by simp)
         · rename_i heq
           cases h
           rfl)
      | exact absurd h (by simp)

theorem extractLoop_counts (available : Bool) (pages : List (ℚ × ℚ))
    (pixmapBytes : ℚ → Nat → (ℚ × ℚ × ℚ × ℚ) → PStr)
    (keyPrefixStr jobId bucket : PStr) (page_no candidate_no : Int)
    (external_problem_key : PStr) (candidate_bbox : Option JValue) (t : PStr) :
    ∀ (hints : List JValue) (idx : Nat),
      assetTypeCount t
          (extractLoop available pages pixmapBytes keyPrefixStr jobId bucket page_no
            candidate_no external_problem_key candidate_bbox idx hints) ≤
        hintTypeCountNorm t hints ∧
      (extractLoop available pages pixmapBytes keyPrefixStr jobId bucket page_no
          candidate_no external_problem_key candidate_bbox idx hints).length ≤
        hints.length
  | [], _ => by simp [extractLoop, assetTypeCount, hintTypeCountNorm]
  | hint :: rest, idx => by
      have ih := extractLoop_counts available pages pixmapBytes keyPrefixStr jobId bucket
        page_no candidate_no external_problem_key candidate_bbox t rest (idx + 1)
      have h1 := ih.1
      have h2 := ih.2
      simp only [assetTypeCount, hintTypeCountNorm] at h1
      simp only [extractLoop]
      rcases hone : extractOne available pages pixmapBytes keyPrefixStr jobId bucket page_no
          candidate_no external_problem_key candidate_bbox idx hint with _ | asset
      · simp only [hone]
        constructor
        · by_cases ht : normHintType hint = t <;>
            simp only [assetTypeCount, hintTypeCountNorm, List.filter_cons, ht] <;>
            simp <;> omega
        · simpa using le_trans h2 (Nat.le_succ _)
      · simp only [hone]
        have htype := extractOne_type available pages pixmapBytes keyPrefixStr jobId bucket
          page_no candidate_no external_problem_key candidate_bbox idx hint asset hone
        constructor
        · by_cases ht : normHintType hint = t <;>
            simp only [assetTypeCount, hintTypeCountNorm, List.filter_cons, htype, ht] <;>
            simp <;> omega
        · simpa using Nat.succ_le_succ h2

theorem selectLoop_mem (x : JValue) :
    ∀ (rest selected : List JValue) (counts : PStr → Nat),
      x ∈ selectLoop rest selected counts → x ∈ selected ∨ x ∈ rest
  | [], selected, counts, h => by
      simp only [selectLoop] at h
      exact Or.inl h
  | hint :: rest, selected, counts, h => by
      simp only [selectLoop] at h
      split at h
      · rcases selectLoop_mem x rest selected counts h with h | h
        · exact Or.inl h
        · exact Or.inr (List.mem_cons_of_mem _ h)
      · split at h
        · rcases List.mem_append.mp h with h | h
          · exact Or.inl h
          · simp at h
            exact Or.inr (by simp [h])
        · rcases selectLoop_mem x rest (selected ++ [hint]) _ h with h | h
          · rcases List.mem_append.mp h with h | h
            · exact Or.inl h
            · simp at h
              exact Or.inr (by simp [h])
          · exact Or.inr (List.mem_cons_of_mem _ h)

theorem selectLoop_length :
    ∀ (rest selected : List JValue) (counts : PStr → Nat),
      selected.length < 6 → (selectLoop rest selected counts).length ≤ 6
  | [], selected, counts, h => by
      simp only [selectLoop]
      omega
  | hint :: rest, selected, counts, h => by
      simp only [selectLoop]
      split
      · exact selectLoop_length rest selected counts h
      · split
        · rename_i hge
          simp only [List.length_append, List.length_cons, List.length_nil] at hge ⊢
          omega
        · refine selectLoop_length rest (selected ++ [hint]) _ ?_
          rename_i hlt
          simp only [List.length_append, List.length_cons, List.length_nil] at hlt ⊢
          omega

theorem selectLoop_type_cap (t : PStr) :
    ∀ (rest selected : List JValue) (counts : PStr → Nat),
      (∀ s, hintTypeCountRaw s selected = counts s) →
      (∀ s, counts s ≤ 2) →
      hintTypeCountRaw t (selectLoop rest selected counts) ≤ 2
  | [], selected, counts, hinv, hle => by
      simp only [selectLoop]
      rw [hinv t]
      exact hle t
  | hint :: rest, selected, counts, hinv, hle => by
      simp only [selectLoop]
      split
      · exact selectLoop_type_cap t rest selected counts hinv hle
      · rename_i hlt
        have hinv' : ∀ s, hintTypeCountRaw s (selected ++ [hint]) =
            (fun s => if s = rawHintType hint then counts (rawHintType hint) + 1
              else counts s) s := by
          intro s
          have hbase := hinv s
          simp only [hintTypeCountRaw] at hbase ⊢
          simp only [List.filter_append, List.length_append]
          by_cases hs : s = rawHintType hint
          · subst hs
            simp [hbase]
          · have hne : ¬ (rawHintType hint = s) := fun e => hs e.symm
            simp [hne, hs, hbase]
        have hle' : ∀ s, (fun s => if s = rawHintType hint then
            counts (rawHintType hint) + 1 else counts s) s ≤ 2 := by
          intro s
          by_cases hs : s = rawHintType hint
          · simp [hs]
            omega
          · simp only [if_neg hs]
            exact hle s
        split
        · rw [hinv' t]
          exact hle' t
        · exact selectLoop_type_cap t rest (selected ++ [hint]) _ hinv' hle'

end AssetExtractor

namespace AssetExtractor

theorem lookup_setField (fields : List (PStr × JValue)) (k : PStr) (v : JValue) :
    JValue.lookup (Mathpix.setField fields k v) k = some v := by
  induction fields with
  | nil => simp [Mathpix.setField, JValue.lookup]
  | cons kv rest ih =>
      by_cases hk : kv.1 = k
      · simp [Mathpix.setField, JValue.lookup, hk]
      · cases kv
        simp_all [Mathpix.setField, JValue.lookup, hk]

theorem rawHintType_allowed_fixed (t : PStr) (h : AIClassifier.allowedAssetTypes.contains t) :
    pyLower (pyStrip t) = t := by
  have h' : t ∈ AIClassifier.allowedAssetTypes := by
    simpa [AIClassifier.allowedAssetTypes] using h
  fin_cases h' <;> decide

theorem normHintType_mem_allowed (h : JValue) :
    AIClassifier.allowedAssetTypes.contains (normHintType h) = true := by
  simp only [normHintType]
  split <;> simp_all [AIClassifier.allowedAssetTypes]

theorem normHintType_of_raw_allowed (h : JValue)
    (ht : AIClassifier.allowedAssetTypes.contains (rawHintType h) = true) :
    normHintType h = rawHintType h := by
  simp only [normHintType]
  rw [ht]
  simp

theorem rawHintType_normalized (f : List (PStr × JValue)) (t : PStr)
    (ht : AIClassifier.allowedAssetTypes.contains t) (hne : t ≠ []) :
    rawHintType (Mathpix.objSet (.obj f) "asset_type".data (.str t)) = t := by
  have hget : (Mathpix.objSet (.obj f) "asset_type".data (.str t)).get "asset_type".data =
      .str t := by
    simp [Mathpix.objSet, JValue.get, lookup_setField]
  simp only [rawHintType, hget, pyOr, JValue.truthy]
  rw [if_pos (by simpa using hne)]
  exact rawHintType_allowed_fixed t ht

theorem allowed_ne_nil (t : PStr) (h : AIClassifier.allowedAssetTypes.contains t) :
    t ≠ [] := by
  have h' : t ∈ AIClassifier.allowedAssetTypes := by
    simpa [AIClassifier.allowedAssetTypes] using h
  fin_cases h' <;> decide

theorem mem_stableInsert {le : α → α → Bool} {x y : α} {l : List α} :
    x ∈ stableInsert le y l → x = y ∨ x ∈ l := by
  induction l with
  | nil => simp [stableInsert]
  | cons z zs ih =>
      simp only [stableInsert]
      split
      · intro h
        rcases List.mem_cons.mp h with h | h
        · exact Or.inl h
        · exact Or.inr h
      · intro h
        rcases List.mem_cons.mp h with h | h
        · exact Or.inr (by simp [h])
        · rcases ih h with h | h
          · exact Or.inl h
          · exact Or.inr (List.mem_cons_of_mem _ h)

theorem mem_stableSort {le : α → α → Bool} {x : α} {l : List α} :
    x ∈ stableSort le l → x ∈ l := by
  induction l with
  | nil => simp [stableSort]
  | cons z zs ih =>
      intro h
      rcases mem_stableInsert (l := stableSort le zs) h with h | h
      · simp [h]
      · exact List.mem_cons_of_mem _ (ih h)

/-- Every hint that survives selection has its raw and clamped types equal
(selection runs on normalized hints). -/
theorem selected_raw_eq_norm (asset_hints : List JValue) (h : JValue)
    (hmem : h ∈ select_asset_hints asset_hints) : rawHintType h = normHintType h := by
  simp only [select_asset_hints] at hmem
  split at hmem
  · simp at hmem
  · split at hmem
    · simp at hmem
    · have hmem' := selectLoop_mem h _ _ _ hmem
      rcases hmem' with hfalse | hmem'
      · simp at hfalse
      · have hmem'' := mem_stableSort hmem'
        rcases List.mem_filterMap.mp hmem'' with ⟨orig, -, horig⟩
        cases orig with
        | null => simp at horig
        | bool b => simp at horig
        | num q => simp at horig
        | str s => simp at horig
        | arr xs => simp at horig
        | obj f =>
            simp only [Option.some.injEq] at horig
            subst horig
            have ht := normHintType_mem_allowed (.obj f)
            have hraw := rawHintType_normalized f (normHintType (.obj f)) ht
              (allowed_ne_nil _ ht)
            have ht2 : AIClassifier.allowedAssetTypes.contains
                (rawHintType (Mathpix.objSet (.obj f) "asset_type".data
                  (.str (normHintType (.obj f))))) = true := by
              rw [hraw]
              exact ht
            rw [normHintType_of_raw_allowed _ ht2]

/-- C4: for every hint list (any size or contents) and any rendering oracle,
`extract_and_upload` records (and hence uploads) at most 2 assets per
asset type and at most 6 assets in total. -/
theorem claim_C4_upload_caps (available : Bool) (pages : List (ℚ × ℚ))
    (pixmapBytes : ℚ → Nat → (ℚ × ℚ × ℚ × ℚ) → PStr)
    (keyPrefixStr jobId bucket : PStr) (page_no candidate_no : Int)
    (external_problem_key : PStr) (asset_hints : List JValue)
    (candidate_bbox : Option JValue) (t : PStr) :
    assetTypeCount t
        (extract_and_upload available pages pixmapBytes keyPrefixStr jobId bucket page_no
          candidate_no external_problem_key asset_hints candidate_bbox) ≤ 2 ∧
    (extract_and_upload available pages pixmapBytes keyPrefixStr jobId bucket page_no
        candidate_no external_problem_key asset_hints candidate_bbox).length ≤ 6 := by
  simp only [extract_and_upload]
  split
  · simp [assetTypeCount]
  · split
    · simp [assetTypeCount]
    · split
      · simp [assetTypeCount]
      · have hloop := extractLoop_counts available pages pixmapBytes keyPrefixStr jobId
          bucket page_no candidate_no external_problem_key candidate_bbox t
          (select_asset_hints asset_hints) 1
        constructor
        · refine le_trans hloop.1 ?_
          have hcong : hintTypeCountNorm t (select_asset_hints asset_hints) =
              hintTypeCountRaw t (select_asset_hints asset_hints) := by
            simp only [hintTypeCountNorm, hintTypeCountRaw]
            rw [List.filter_congr]
            intro a ha
            rw [selected_raw_eq_norm asset_hints a ha]
          rw [hcong]
          simp only [select_asset_hints]
          split
          · simp [hintTypeCountRaw]
          · split
            · simp [hintTypeCountRaw]
            · exact selectLoop_type_cap t _ [] _ (fun s => by simp [hintTypeCountRaw])
                (fun s => by norm_num)
        · refine le_trans hloop.2 ?_
          simp only [select_asset_hints]
          split
          · simp
          · split
            · simp
            · exact selectLoop_length _ [] _ (by norm_num)

theorem enforceAxis_lower (lo hi bound m : ℚ) (h0 : 0 ≤ lo) :
    0 ≤ (enforceAxis lo hi bound m).1 := by
  simp only [enforceAxis]
  split_ifs <;> simp_all [le_max_iff, le_refl]

theorem enforceAxis_upper (lo hi bound m : ℚ) (h1 : hi ≤ bound) :
    (enforceAxis lo hi bound m).2 ≤ bound := by
  simp only [enforceAxis]
  split_ifs <;> simp_all [min_le_iff, le_refl]

theorem enforceAxis_min_size (lo hi bound m : ℚ) (hm : m ≤ bound) :
    m ≤ (enforceAxis lo hi bound m).2 - (enforceAxis lo hi bound m).1 := by
  simp only [enforceAxis]
  split_ifs with h1 h2 h3 h4
  · -- grown but still small, left side pinned at 0
    have hz : max 0 (lo - (m - (hi - lo)) / 2) = 0 :=
      le_antisymm h3 (le_max_left _ _)
    simp only [hz, zero_add]
    rw [min_eq_right hm]
    simp
  · -- grown but still small, right side pinned at the page edge
    have hb : min bound (hi + (m - (hi - lo)) / 2) = bound :=
      le_antisymm (min_le_left _ _) h4
    have hmb : 0 ≤ bound - m := by linarith
    simp only [hb, max_eq_right hmb]
    linarith
  · -- grown but still small with neither side pinned: impossible
    exfalso
    have hv : max 0 (lo - (m - (hi - lo)) / 2) = lo - (m - (hi - lo)) / 2 := by
      rcases le_total (lo - (m - (hi - lo)) / 2) 0 with hc | hc
      · exact absurd (le_of_eq (max_eq_left hc)) h3
      · exact max_eq_right hc
    have hw : min bound (hi + (m - (hi - lo)) / 2) = hi + (m - (hi - lo)) / 2 := by
      rcases le_total bound (hi + (m - (hi - lo)) / 2) with hc | hc
      · exact absurd (ge_of_eq (min_eq_left hc)) h4
      · exact min_eq_right hc
    rw [hv, hw] at h2
    linarith
  · -- symmetric growth reached the minimum
    linarith
  · -- already at least the minimum
    linarith

theorem enforceAxis_unchanged (lo hi bound m : ℚ) (hw : m ≤ hi - lo) :
    enforceAxis lo hi bound m = (lo, hi) := by
  simp only [enforceAxis]
  rw [if_neg (by linarith)]

theorem enforceAxis_symmetric (lo hi bound m : ℚ) (hw : hi - lo < m)
    (hlo : 0 ≤ lo - (m - (hi - lo)) / 2) (hhi : hi + (m - (hi - lo)) / 2 ≤ bound) :
    enforceAxis lo hi bound m = (lo - (m - (hi - lo)) / 2, hi + (m - (hi - lo)) / 2) := by
  simp only [enforceAxis]
  rw [if_pos hw, max_eq_right hlo, min_eq_right hhi, if_neg (by push_neg; linarith)]

end AssetExtractor

namespace AssetExtractor

theorem resolveClipRectCore_geometry (page_w page_h : ℚ) (bbox : JValue)
    (asset_type : PStr) (x0 y0 x1 y1 : ℚ) (r : ℚ × ℚ × ℚ × ℚ) (nb : JValue)
    (h : resolveClipRectCore page_w page_h bbox asset_type x0 y0 x1 y1 = some (r, nb)) :
    (0 ≤ r.1 ∧ 0 ≤ r.2.1 ∧ r.2.2.1 ≤ page_w ∧ r.2.2.2 ≤ page_h ∧
      r.1 < r.2.2.1 ∧ r.2.1 < r.2.2.2) ∧
    ((resolve_crop_profile asset_type).2.2.1 ≤ page_w →
      (resolve_crop_profile asset_type).2.2.2 ≤ page_h →
      (resolve_crop_profile asset_type).2.2.1 ≤ r.2.2.1 - r.1 ∧
      (resolve_crop_profile asset_type).2.2.2 ≤ r.2.2.2 - r.2.1) := by
  simp only [resolveClipRectCore, enforce_min_crop_size] at h
  split at h
  · exact Option.noConfusion h
  split at h
  · exact Option.noConfusion h
  rename_i hg2
  rw [not_or] at hg2
  simp only [Option.some.injEq, Prod.mk.injEq] at h
  obtain ⟨hr, -⟩ := h
  subst hr
  refine ⟨⟨enforceAxis_lower _ _ _ _ (le_max_left _ _),
    enforceAxis_lower _ _ _ _ (le_max_left _ _),
    enforceAxis_upper _ _ _ _ (min_le_left _ _),
    enforceAxis_upper _ _ _ _ (min_le_left _ _),
    lt_of_not_le hg2.1, lt_of_not_le hg2.2⟩, ?_⟩
  intro hw hh
  exact ⟨enforceAxis_min_size _ _ _ _ hw, enforceAxis_min_size _ _ _ _ hh⟩

theorem resolve_clip_rect_geometry (page_w page_h : ℚ) (bbox : JValue) (asset_type : PStr)
    (r : ℚ × ℚ × ℚ × ℚ) (nb : JValue)
    (h : resolve_clip_rect page_w page_h bbox asset_type = some (r, nb)) :
    (0 ≤ r.1 ∧ 0 ≤ r.2.1 ∧ r.2.2.1 ≤ page_w ∧ r.2.2.2 ≤ page_h ∧
      r.1 < r.2.2.1 ∧ r.2.1 < r.2.2.2) ∧
    ((resolve_crop_profile asset_type).2.2.1 ≤ page_w →
      (resolve_crop_profile asset_type).2.2.2 ≤ page_h →
      (resolve_crop_profile asset_type).2.2.1 ≤ r.2.2.1 - r.1 ∧
      (resolve_crop_profile asset_type).2.2.2 ≤ r.2.2.2 - r.2.1) := by
  cases bbox <;> simp only [resolve_clip_rect] at h <;> try exact absurd h (by simp)
  rename_i fields
  rcases hxy : to_xyxy (JValue.obj fields) with _ | ⟨a, b, c, d⟩ <;> rw [hxy] at h
  · exact absurd h (by simp)
  · exact resolveClipRectCore_geometry page_w page_h _ _ a b c d r nb h

end AssetExtractor

/-- C6: the crop-profile table matches the spec (graph 18%/120×120,
table 10%/72×72, image 8%/64×64, default 6%/56×56); every clip rectangle
resolved from a parseable, non-degenerate bbox lies inside the page boundary
`[0, page_w] × [0, page_h]` and, whenever the page is at least the asset
type's minimum crop size, meets that minimum in both dimensions; and
minimum-size growth is symmetric about the rectangle's center whenever the
symmetric growth fits the page, while a side pinned at the page edge keeps
the rectangle unchanged only when already large enough. -/
theorem claim_C6_clip_rect_policy :
    (AssetExtractor.resolve_crop_profile "graph".data = (0.18, 14, 120, 120) ∧
      AssetExtractor.resolve_crop_profile "table".data = (0.1, 10, 72, 72) ∧
      AssetExtractor.resolve_crop_profile "image".data = (0.08, 8, 64, 64) ∧
      AssetExtractor.resolve_crop_profile "other".data = (0.06, 6, 56, 56)) ∧
    (∀ (page_w page_h : ℚ) (bbox : JValue) (asset_type : PStr)
        (r : ℚ × ℚ × ℚ × ℚ) (nb : JValue),
      AssetExtractor.resolve_clip_rect page_w page_h bbox asset_type = some (r, nb) →
        (0 ≤ r.1 ∧ 0 ≤ r.2.1 ∧ r.2.2.1 ≤ page_w ∧ r.2.2.2 ≤ page_h ∧
          r.1 < r.2.2.1 ∧ r.2.1 < r.2.2.2) ∧
        ((AssetExtractor.resolve_crop_profile asset_type).2.2.1 ≤ page_w →
          (AssetExtractor.resolve_crop_profile asset_type).2.2.2 ≤ page_h →
          (AssetExtractor.resolve_crop_profile asset_type).2.2.1 ≤ r.2.2.1 - r.1 ∧
          (AssetExtractor.resolve_crop_profile asset_type).2.2.2 ≤ r.2.2.2 - r.2.1)) ∧
    (∀ x0 y0 x1 y1 pw ph mw mh : ℚ,
      (mw ≤ x1 - x0 →
        (AssetExtractor.enforce_min_crop_size x0 y0 x1 y1 pw ph mw mh).1 = x0 ∧
        (AssetExtractor.enforce_min_crop_size x0 y0 x1 y1 pw ph mw mh).2.2.1 = x1) ∧
      (x1 - x0 < mw → 0 ≤ x0 - (mw - (x1 - x0)) / 2 → x1 + (mw - (x1 - x0)) / 2 ≤ pw →
        (AssetExtractor.enforce_min_crop_size x0 y0 x1 y1 pw ph mw mh).1 =
          x0 - (mw - (x1 - x0)) / 2 ∧
        (AssetExtractor.enforce_min_crop_size x0 y0 x1 y1 pw ph mw mh).2.2.1 =
          x1 + (mw - (x1 - x0)) / 2 ∧
        (AssetExtractor.enforce_min_crop_size x0 y0 x1 y1 pw ph mw mh).1 +
          (AssetExtractor.enforce_min_crop_size x0 y0 x1 y1 pw ph mw mh).2.2.1 = x0 + x1) ∧
      (mh ≤ y1 - y0 →
        (AssetExtractor.enforce_min_crop_size x0 y0 x1 y1 pw ph mw mh).2.1 = y0 ∧
        (AssetExtractor.enforce_min_crop_size x0 y0 x1 y1 pw ph mw mh).2.2.2 = y1) ∧
      (y1 - y0 < mh → 0 ≤ y0 - (mh - (y1 - y0)) / 2 → y1 + (mh - (y1 - y0)) / 2 ≤ ph →
        (AssetExtractor.enforce_min_crop_size x0 y0 x1 y1 pw ph mw mh).2.1 =
          y0 - (mh - (y1 - y0)) / 2 ∧
        (AssetExtractor.enforce_min_crop_size x0 y0 x1 y1 pw ph mw mh).2.2.2 =
          y1 + (mh - (y1 - y0)) / 2 ∧
        (AssetExtractor.enforce_min_crop_size x0 y0 x1 y1 pw ph mw mh).2.1 +
          (AssetExtractor.enforce_min_crop_size x0 y0 x1 y1 pw ph mw mh).2.2.2 = y0 + y1)) := by
  refine ⟨⟨?_, ?_, ?_, ?_⟩, ?_, ?_⟩
  · have hn : pyLower (pyStrip "graph".data) = "graph".data := by decide
    simp [AssetExtractor.resolve_crop_profile, hn]
  · have hn : pyLower (pyStrip "table".data) = "table".data := by decide
    simp [AssetExtractor.resolve_crop_profile, hn]
  · have hn : pyLower (pyStrip "image".data) = "image".data := by decide
    simp [AssetExtractor.resolve_crop_profile, hn]
  · have hn : pyLower (pyStrip "other".data) = "other".data := by decide
    simp [AssetExtractor.resolve_crop_profile, hn]
  · intro page_w page_h bbox asset_type r nb h
    exact AssetExtractor.resolve_clip_rect_geometry page_w page_h bbox asset_type r nb h
  · intro x0 y0 x1 y1 pw ph mw mh
    refine ⟨?_, ?_, ?_, ?_⟩
    · intro hw
      simp [AssetExtractor.enforce_min_crop_size,
        AssetExtractor.enforceAxis_unchanged _ _ _ _ hw]
    · intro hw hlo hhi
      simp [AssetExtractor.enforce_min_crop_size,
        AssetExtractor.enforceAxis_symmetric _ _ _ _ hw hlo hhi]
    · intro hh
      simp [AssetExtractor.enforce_min_crop_size,
        AssetExtractor.enforceAxis_unchanged _ _ _ _ hh]
    · intro hh hlo hhi
      simp [AssetExtractor.enforce_min_crop_size,
        AssetExtractor.enforceAxis_symmetric _ _ _ _ hh hlo hhi]

/-- Witness for C6: a 100×100 point-space bbox on a 612×792 page with the
`graph` profile resolves to the in-bounds rectangle (82, 82, 218, 218) of
width and height 136 ≥ 120. -/
theorem claim_C6_witness :
    AssetExtractor.resolve_clip_rect 612 792
        (.obj [("x1".data, .num 100), ("y1".data, .num 100),
          ("x2".data, .num 200), ("y2".data, .num 200)]) "graph".data =
      some ((82, 82, 218, 218),
        .obj [("x0_ratio".data, .num (133987 / 1000000)),
              ("y0_ratio".data, .num (103535 / 1000000)),
              ("x1_ratio".data, .num (356209 / 1000000)),
              ("y1_ratio".data, .num (275253 / 1000000))]) ∧
    (0 ≤ (82 : ℚ) ∧ 0 ≤ (82 : ℚ) ∧ (218 : ℚ) ≤ 612 ∧ (218 : ℚ) ≤ 792 ∧
      (82 : ℚ) < 218 ∧ (82 : ℚ) < 218) ∧
    ((120 : ℚ) ≤ 218 - 82 ∧ (120 : ℚ) ≤ 218 - 82) := by
  have hbb : AssetExtractor.to_xyxy
      (.obj [("x1".data, .num 100), ("y1".data, .num 100),
        ("x2".data, .num 200), ("y2".data, .num 200)]) = some (100, 100, 200, 200) := by
    decide
  have hsd : AssetExtractor.resolve_source_dimensions
      (.obj [("x1".data, .num 100), ("y1".data, .num 100),
        ("x2".data, .num 200), ("y2".data, .num 200)]) = none := by
    decide
  have hnc : AssetExtractor.normalizeCoords 612 792
      (.obj [("x1".data, .num 100), ("y1".data, .num 100),
        ("x2".data, .num 200), ("y2".data, .num 200)]) 100 100 200 200 =
      (100, 100, 200, 200) := by
    norm_num [AssetExtractor.normalizeCoords, hsd]
  have hn : pyLower (pyStrip "graph".data) = "graph".data := by decide
  have hprof : AssetExtractor.resolve_crop_profile "graph".data = (0.18, 14, 120, 120) := by
    simp [AssetExtractor.resolve_crop_profile, hn]
  have henf : AssetExtractor.enforce_min_crop_size 82 82 218 218 612 792 120 120 =
      (82, 82, 218, 218) := by
    norm_num [AssetExtractor.enforce_min_crop_size, AssetExtractor.enforceAxis]
  have heval : AssetExtractor.resolve_clip_rect 612 792
      (.obj [("x1".data, .num 100), ("y1".data, .num 100),
        ("x2".data, .num 200), ("y2".data, .num 200)]) "graph".data =
      some ((82, 82, 218, 218),
        .obj [("x0_ratio".data, .num (133987 / 1000000)),
              ("y0_ratio".data, .num (103535 / 1000000)),
              ("x1_ratio".data, .num (356209 / 1000000)),
              ("y1_ratio".data, .num (275253 / 1000000))]) := by
    rw [AssetExtractor.resolve_clip_rect]
    rw [hbb]
    simp only [AssetExtractor.resolveClipRectCore]
    rw [if_neg (by norm_num)]
    rw [hnc, hprof]
    norm_num
    rw [henf]
    norm_num [AssetExtractor.round6, AssetExtractor.roundHalfEven]
  refine ⟨heval, ?_, ?_⟩
  · exact (claim_C6_clip_rect_policy.2.1 612 792 _ _ _ _ heval).1
  · refine (claim_C6_clip_rect_policy.2.1 612 792 _ _ _ _ heval).2 ?_ ?_ <;>
      rw [claim_C6_clip_rect_policy.1.1] <;> norm_num

/-! ## `ai_classifier.py`: regex segmentation -/

namespace AIClassifier

/-- `countWhile p s = (n, rest)`: length of the maximal `p`-prefix and the
remainder; the building block for the greedy character classes (`\s*`,
`\d{1,2}`) of the four segmentation regexes (ASCII `\s`/`\d`, as the matched
keywords and digits are ASCII). -/
def countWhile (p : Char → Bool) : PStr → Nat × PStr
  | [] => (0, [])
  | c :: rest =>
      if p c then
        let (n, r) := countWhile p rest
        (n + 1, r)
      else (0, c :: rest)

/-- One regex match: start offset, end offset, first capture group. -/
structure ReMatch where
  start : Nat
  stop : Nat
  group1 : PStr
  deriving DecidableEq

/-- `CANDIDATE_SPLIT_RE` at one position: `^\s*(\d{1,2})\s*[.)]\s+`.
A run of 3+ digits fails (both the 2- and 1-digit backtracks hit a digit
where `[.)]` is required). -/
def matchNumbered (s : PStr) : Option (PStr × Nat) :=
  let ws := countWhile pyIsSpace s
  let ds := countWhile Char.isDigit ws.2
  if ds.1 = 0 ∨ ds.1 > 2 then none
  else
    let ws2 := countWhile pyIsSpace ds.2
    match ws2.2 with
    | c :: rest =>
        if c = '.' ∨ c = ')' then
          let ws3 := countWhile pyIsSpace rest
          if ws3.1 ≥ 1 then some (ws.2.take ds.1, ws.1 + ds.1 + ws2.1 + 1 + ws3.1)
          else none
        else none
    | [] => none

/-- `BRACKETED_CANDIDATE_SPLIT_RE` at one position: `^\s*\[(\d{1,2})\]\s+`. -/
def matchBracketed (s : PStr) : Option (PStr × Nat) :=
  let ws := countWhile pyIsSpace s
  match ws.2 with
  | '[' :: rest1 =>
      let ds := countWhile Char.isDigit rest1
      if ds.1 = 0 ∨ ds.1 > 2 then none
      else
        match ds.2 with
        | ']' :: rest3 =>
            let ws2 := countWhile pyIsSpace rest3
            if ws2.1 ≥ 1 then some (rest1.take ds.1, ws.1 + 1 + ds.1 + 1 + ws2.1)
            else none
        | _ => none
  | _ => none

/-- `QUESTION_LABEL_SPLIT_RE` at one position:
`^\s*문항\s*(\d{1,2})\s*(?:번)?\s*[:.)]?\s*` (the tail after the digits is all
optional, so a 3+-digit run matches on its first two digits). -/
def matchQuestionLabel (s : PStr) : Option (PStr × Nat) :=
  let ws := countWhile pyIsSpace s
  match ws.2 with
  | '문' :: '항' :: rest1 =>
      let ws2 := countWhile pyIsSpace rest1
      let ds := countWhile Char.isDigit ws2.2
      if ds.1 = 0 then none
      else
        let takeN := min ds.1 2
        let digits := ws2.2.take takeN
        let rest3 := ws2.2.drop takeN
        let ws3 := countWhile pyIsSpace rest3
        let beon : Nat × PStr :=
          match ws3.2 with
          | '번' :: r => (1, r)
          | r => (0, r)
        let ws4 := countWhile pyIsSpace beon.2
        let punct : Nat × PStr :=
          match ws4.2 with
          | c :: r => if c = ':' ∨ c = '.' ∨ c = ')' then (1, r) else (0, c :: r)
          | [] => (0, [])
        let ws5 := countWhile pyIsSpace punct.2
        some (digits,
          ws.1 + 2 + ws2.1 + takeN + ws3.1 + beon.1 + ws4.1 + punct.1 + ws5.1)
  | _ => none

/-- `NUMBER_WITH_BEON_SPLIT_RE` at one position: `^\s*(\d{1,2})\s*번\s+`. -/
def matchBeon (s : PStr) : Option (PStr × Nat) :=
  let ws := countWhile pyIsSpace s
  let ds := countWhile Char.isDigit ws.2
  if ds.1 = 0 ∨ ds.1 > 2 then none
  else
    let ws2 := countWhile pyIsSpace ds.2
    match ws2.2 with
    | '번' :: rest =>
        let ws3 := countWhile pyIsSpace rest
        if ws3.1 ≥ 1 then some (ws.2.take ds.1, ws.1 + ds.1 + ws2.1 + 1 + ws3.1)
        else none
    | _ => none

/-- Advance `n` characters, tracking the previous character (for the `(?m)^`
line-start test). -/
def skipChars : Nat → PStr → Option Char → PStr × Option Char
  | 0, rem, prev => (rem, prev)
  | _ + 1, [], prev => ([], prev)
  | n + 1, c :: rest, _ => skipChars n rest (some c)

/-- `finditer` for an `(?m)^`-anchored pattern: scan left to right, attempt
the pattern only at line starts, and continue after the end of each
(non-empty) match.  `fuel` is the remaining text length plus one; every step
consumes at least one character, so the fuel never runs out. -/
def finditerAux (matchAt : PStr → Option (PStr × Nat)) :
    Nat → PStr → Nat → Option Char → List ReMatch
  | 0, _, _, _ => []
  | _ + 1, [], _, _ => []
  | fuel + 1, c :: rest, pos, prev =>
      let lineStart :=
        match prev with
        | none => true
        | some p => p = '\n'
      if lineStart then
        match matchAt (c :: rest) with
        | some (g, len) =>
            let next := skipChars len (c :: rest) prev
            { start := pos, stop := pos + len, group1 := g } ::
              finditerAux matchAt fuel next.1 (pos + len) next.2
        | none => finditerAux matchAt fuel rest (pos + 1) (some c)
      else finditerAux matchAt fuel rest (pos + 1) (some c)

def finditer (matchAt : PStr → Option (PStr × Nat)) (s : PStr) : List ReMatch :=
  finditerAux matchAt (s.length + 1) s 0 none

/-- The four competing split patterns, in declaration order. -/
def splitPatterns : List (PStr × (PStr → Option (PStr × Nat))) :=
  [("numbered".data, matchNumbered),
   ("bracketed".data, matchBracketed),
   ("question_label".data, matchQuestionLabel),
   ("number_with_beon".data, matchBeon)]

/-- `_is_likely_problem_sequence(numbers)`. -/
def is_likely_problem_sequence (numbers : List Int) : Bool :=
  if numbers.length ≤ 1 then false
  else
    let increasing :=
      (numbers.zip numbers.tail).countP fun p => decide (0 < p.2 - p.1 ∧ p.2 - p.1 ≤ 3)
    increasing ≥ max 1 (numbers.length - 2)

/-- The captured numbers of a match list (`int(match.group(1))`; the group is
always a 1–2 digit string, so the source's try/except never fires). -/
def numbersOf (ms : List ReMatch) : List Int :=
  ms.map fun m => (digitsToNat m.group1 : Int)

/-- A pattern's score: match count plus 2 for a likely problem sequence. -/
def scoreOfMatches (ms : List ReMatch) : Nat :=
  ms.length + (if is_likely_problem_sequence (numbersOf ms) then 2 else 0)

/-- The best-pattern fold of `_select_best_split_matches` (keep the first
strictly-greater score; patterns without matches are skipped). -/
def selectBestLoop : List (PStr × List ReMatch) → List ReMatch × PStr × Int →
    List ReMatch × PStr × Int
  | [], acc => acc
  | (strategy, ms) :: rest, acc =>
      if ms = [] then selectBestLoop rest acc
      else if (scoreOfMatches ms : Int) > acc.2.2 then
        selectBestLoop rest (ms, strategy, (scoreOfMatches ms : Int))
      else selectBestLoop rest acc

/-- `_select_best_split_matches(text)`. -/
def select_best_split_matches (text : PStr) : List ReMatch × PStr :=
  let scored := splitPatterns.map fun p => (p.1, finditer p.2 text)
  let r := selectBestLoop scored ([], "numbered".data, -1)
  (r.1, r.2.1)

end AIClassifier

/-! ## `ai_classifier.py`: layout candidate extraction -/

namespace AIClassifier

/-- `_is_visual_text_node(node)`. -/
def is_visual_text_node (node : JValue) : Bool :=
  let node_type := strFieldLower node "type".data
  let node_subtype := strFieldLower node "subtype".data
  if visualNodeTypes.contains node_type ∨ graphNodeTypes.contains node_type then true
  else if node_type = "diagram".data ∧ graphDiagramSubtypes.contains node_subtype then true
  else
    match infer_asset_type_from_node node with
    | some t =>
        if t = "graph".data ∨ t = "image".data ∨ t = "table".data then
          node.get "bbox".data ≠ .null ∨ node.get "cnt".data ≠ .null ∨
            node.get "region".data ≠ .null
        else false
    | none => false

/-- `_extract_node_text(node)`: `text`/`text_display`, then a string or dict
`conversion_output`; the empty string plays Python's falsy `""`. -/
def extract_node_text (node : JValue) : PStr :=
  let direct := first_non_empty_strA node ["text".data, "text_display".data]
  match direct with
  | some s => s
  | none =>
      match node.get "conversion_output".data with
      | .str s => pyStrip s
      | .obj f =>
          match first_non_empty_strA (.obj f)
              ["text".data, "markdown".data, "latex_styled".data, "latex".data,
                "value".data] with
          | some s => s
          | none => []
      | _ => []
where
  /-- First key whose string value strips to non-empty. -/
  first_non_empty_strA (source : JValue) : List PStr → Option PStr
  | [] => none
  | k :: rest =>
      match source.get k with
      | .str s => if pyStrip s ≠ [] then some (pyStrip s) else first_non_empty_strA source rest
      | _ => first_non_empty_strA source rest

/-- `re.sub(r"\s+", " ", text)`: collapse every whitespace run to one space
(the flag records whether the previous character was whitespace). -/
def collapseWsAux : Bool → PStr → PStr
  | _, [] => []
  | prevSpace, c :: rest =>
      if pyIsSpace c then
        if prevSpace then collapseWsAux true rest
        else ' ' :: collapseWsAux true rest
      else c :: collapseWsAux false rest

def collapseWs (s : PStr) : PStr := collapseWsAux false s

/-- The `(y, x)`-lexicographic sort order of the row tuples (`rows.sort` with
`key=lambda item: (item[0], item[1])`; equal keys keep insertion order via
the stable sort). -/
def rowLe (a b : ℚ × ℚ × PStr) : Bool :=
  decide (a.1 < b.1 ∨ (a.1 = b.1 ∧ a.2.1 ≤ b.2.1))

/-- The dedup loop of `_rows_to_normalized_text`: the seen-set key is the
whitespace-collapsed strip, the emitted line is the plain strip. -/
def rowsDedup : List (ℚ × ℚ × PStr) → List PStr → List PStr
  | [], _ => []
  | (_, _, text) :: rest, seen =>
      let normalized := pyStrip (collapseWs text)
      if normalized = [] ∨ seen.contains normalized then rowsDedup rest seen
      else pyStrip text :: rowsDedup rest (normalized :: seen)

/-- `_rows_to_normalized_text(rows)`. -/
def rows_to_normalized_text (rows : List (ℚ × ℚ × PStr)) : PStr :=
  match rows with
  | [] => []
  | _ => pyStrip (pyJoin ['\n'] (rowsDedup (stableSort rowLe rows) []))

/-- The shared row-collection loop of `_extract_non_visual_page_text`,
`_build_statement_text` (both skip `page_info`/`column` nodes:
`skipLayout = true`) and `_infer_candidate_no` (`skipLayout = false`):
a `(y, x, text)` row per non-visual dict node with text. -/
def textRows (skipLayout : Bool) (sd : Option (ℚ × ℚ)) (nodes : List JValue) :
    List (ℚ × ℚ × PStr) :=
  nodes.filterMap fun node =>
    match node with
    | .obj f =>
        let node := JValue.obj f
        let node_type := strFieldLower node "type".data
        if skipLayout ∧ (node_type = "page_info".data ∨ node_type = "column".data) then none
        else if is_visual_text_node node then none
        else
          let text := extract_node_text node
          if text = [] then none
          else
            let xy : ℚ × ℚ :=
              match extract_bbox node sd with
              | some b =>
                  match to_bbox_xyxy b with
                  | some r => (r.2.1, r.1)
                  | none => (0, 0)
              | none => (0, 0)
            some (xy.1, xy.2, text)
    | _ => none

/-- `_extract_non_visual_page_text(payload)` (`normalized_text or None`). -/
def extract_non_visual_page_text (payload : JValue) : Option PStr :=
  match payload.get "lines".data with
  | .arr lines_raw =>
      let t := rows_to_normalized_text (textRows true (resolve_source_dimensions payload) lines_raw)
      if t = [] then none else some t
  | _ => none

/-- `_build_statement_text(nodes, source_dimensions=sd)`. -/
def build_statement_text (nodes : List JValue) (sd : Option (ℚ × ℚ)) : PStr :=
  rows_to_normalized_text (textRows true sd nodes)

/-- `re.match(r"^\s*(\d{1,2})\s*[\.)\]]\s*", text)`: anchored; only the
capture matters (3+ digit runs fail as in the finditer patterns). -/
def matchAnchoredNumbered (s : PStr) : Option PStr :=
  let ws := countWhile pyIsSpace s
  let ds := countWhile Char.isDigit ws.2
  if ds.1 = 0 ∨ ds.1 > 2 then none
  else
    let ws2 := countWhile pyIsSpace ds.2
    match ws2.2 with
    | c :: _ => if c = '.' ∨ c = ')' ∨ c = ']' then some (ws.2.take ds.1) else none
    | [] => none

/-- `re.match(r"^\s*문항\s*(\d{1,2})\s*(?:번)?", text)`: everything after the
digits is optional, so a 3+-digit run matches on its first two digits. -/
def matchAnchoredQuestionLabel (s : PStr) : Option PStr :=
  let ws := countWhile pyIsSpace s
  match ws.2 with
  | '문' :: '항' :: rest1 =>
      let ws2 := countWhile pyIsSpace rest1
      let ds := countWhile Char.isDigit ws2.2
      if ds.1 = 0 then none else some (ws2.2.take (min ds.1 2))
  | _ => none

/-- The first-8-rows scan of `_infer_candidate_no` (the third pattern
`^\s*(\d{1,2})\s*번\s+` is exactly the anchored `NUMBER_WITH_BEON` match). -/
def inferNoLoop : List (ℚ × ℚ × PStr) → Option Int
  | [] => none
  | (_, _, text) :: rest =>
      match matchAnchoredNumbered text with
      | some g => some (digitsToNat g : Int)
      | none =>
          match matchAnchoredQuestionLabel text with
          | some g => some (digitsToNat g : Int)
          | none =>
              match matchBeon text with
              | some gl => some (digitsToNat gl.1 : Int)
              | none => inferNoLoop rest

/-- `_infer_candidate_no(nodes, source_dimensions=sd)`. -/
def infer_candidate_no (nodes : List JValue) (sd : Option (ℚ × ℚ)) : Option Int :=
  inferNoLoop ((stableSort rowLe (textRows false sd nodes)).take 8)

/-- `{str(node.get("id")): node for node in nodes if node.get("id")}`:
later entries overwrite earlier ones; `setField` updates in place, which has
the same lookup behaviour. -/
def nodeById (nodes : List JValue) : List (PStr × JValue) :=
  nodes.foldl
    (fun acc node =>
      if (node.get "id".data).truthy then
        Mathpix.setField acc (pyStrOf (node.get "id".data)) node
      else acc)
    []

/-- `[str(item) for item in children if item]`. -/
def childIds (node : JValue) : List PStr :=
  match node.get "children_ids".data with
  | .arr items => items.filterMap fun it => if it.truthy then some (pyStrOf it) else none
  | _ => []

/-- The BFS of `_collect_descendants`.  Every step pops one id, and an id is
pushed only from the initial queue or from a node's children list the first
time that node is visited, so the total number of pops is at most
`queue₀.length + Σ (children of nodes in the map)`; the fuel passed by
`collect_descendants` exceeds that bound and is never exhausted. -/
def collectDescendantsAux (node_by_id : List (PStr × JValue)) :
    Nat → List PStr → List PStr → List JValue
  | 0, _, _ => []
  | _ + 1, [], _ => []
  | fuel + 1, current_id :: queue, seen =>
      if seen.contains current_id then collectDescendantsAux node_by_id fuel queue seen
      else
        match JValue.lookup node_by_id current_id with
        | none => collectDescendantsAux node_by_id fuel queue (current_id :: seen)
        | some node =>
            node :: collectDescendantsAux node_by_id fuel (queue ++ childIds node)
              (current_id :: seen)

/-- `_collect_descendants(root, node_by_id)`. -/
def collect_descendants (root : JValue) (node_by_id : List (PStr × JValue)) :
    List JValue :=
  let queue0 := childIds root
  let fuel := queue0.length + (node_by_id.map fun kv => (childIds kv.2).length).sum + 1
  collectDescendantsAux node_by_id fuel queue0 []

/-- One `column` root candidate (the `continue`s become `none`); the bbox
dict built by `_extract_bbox` is never empty, so Python's `not root_bbox`
is exactly `None`. -/
def rootCandidateOf (sd : Option (ℚ × ℚ)) (node_by_id : List (PStr × JValue))
    (node : JValue) : Option JValue :=
  if strFieldLower node "type".data ≠ "column".data then none
  else
    match node.get "children_ids".data with
    | .arr items =>
        if items = [] then none
        else
          match extract_bbox node sd with
          | none => none
          | some root_bbox =>
              let descendants := node :: collect_descendants node node_by_id
              let statement_text := build_statement_text descendants sd
              let candidate_no := infer_candidate_no descendants sd
              let has_choice_block := descendants.any fun it =>
                it.isObj ∧ strFieldLower it "type".data = "multiple_choice_block".data
              if statement_text = [] ∧ ¬ has_choice_block then none
              else
                some (.obj
                  [("candidate_no".data, match candidate_no with
                     | some n => .num (n : ℚ)
                     | none => .null),
                   ("statement_text".data, .str statement_text),
                   ("bbox".data, root_bbox),
                   ("split_strategy".data, .str "layout_columns".data)])
    | _ => none

/-- `_resolve_page_width(payload, candidates)`. -/
def resolve_page_width (payload : JValue) (candidates : List JValue) : ℚ :=
  let fallback :=
    let max_x2 := candidates.foldl
      (fun acc item =>
        match to_bbox_xyxy (item.get "bbox".data) with
        | some r => max acc r.2.2.1
        | none => acc)
      0
    max max_x2 1
  match pyFloatOfJ (payload.get "page_width".data) with
  | some pw => if pw > 0 then pw else fallback
  | none => fallback

/-- The max-gap scan of `_detect_layout_mode` over the sorted centers
(strict `>` keeps the first maximal gap). -/
def maxGapLoop : List ℚ → Nat → ℚ → Nat → ℚ × Nat
  | [], _, mg, si => (mg, si)
  | [_], _, mg, si => (mg, si)
  | a :: b :: rest, idx, mg, si =>
      if b - a > mg then maxGapLoop (b :: rest) (idx + 1) (b - a) idx
      else maxGapLoop (b :: rest) (idx + 1) mg si

/-- `_detect_layout_mode(candidates, page_width)` (the `getD 0` defaults are
unreachable: `split_index + 1` is a valid index by construction). -/
def detect_layout_mode (candidates : List JValue) (page_width : ℚ) : PStr × ℚ :=
  let centers := candidates.filterMap fun item =>
    (to_bbox_xyxy (item.get "bbox".data)).map fun r => (r.1 + r.2.2.1) / 2
  if centers.length < 2 then ("single_column".data, page_width / 2)
  else
    let sorted_centers := stableSort (fun a b => decide (a ≤ b)) centers
    let gi := maxGapLoop sorted_centers 0 0 0
    if gi.1 < page_width * 0.14 then ("single_column".data, page_width / 2)
    else
      let split_x := (sorted_centers.getD gi.2 0 + sorted_centers.getD (gi.2 + 1) 0) / 2
      let left_count := sorted_centers.countP fun v => decide (v ≤ split_x)
      let right_count := sorted_centers.length - left_count
      if left_count < 1 ∨ right_count < 1 then ("single_column".data, page_width / 2)
      else ("two_column".data, split_x)

/-- `_candidate_layout_sort_key(candidate, layout_mode=..., split_x=...)`. -/
def candidate_layout_sort_key (candidate : JValue) (layout_mode : PStr) (split_x : ℚ) :
    Nat × ℚ × ℚ :=
  match to_bbox_xyxy (candidate.get "bbox".data) with
  | none => (0, 0, 0)
  | some r =>
      if layout_mode = "two_column".data then
        ((if (r.1 + r.2.2.1) / 2 ≤ split_x then 0 else 1), r.2.1, r.1)
      else (0, r.2.1, r.1)

/-- Lexicographic order on the layout sort keys. -/
def layoutKeyLe (a b : Nat × ℚ × ℚ) : Bool :=
  decide (a.1 < b.1 ∨ (a.1 = b.1 ∧
    (a.2.1 < b.2.1 ∨ (a.2.1 = b.2.1 ∧ a.2.2 ≤ b.2.2))))

/-- `isinstance(candidate_no, int)` plus its value: stored candidate numbers
are Python ints or `None` (a Python `bool` is also an `int`). -/
def asIntJ : JValue → Option Int
  | .bool b => some (if b then 1 else 0)
  | .num q => if q.den = 1 then some q.num else none
  | _ => none

/-- `candidate_no = index; while candidate_no in used: candidate_no += 1`.
`used` is finite, so `used.length + 1` attempts always reach a fresh
number. -/
def freshNo (used : List Int) : Nat → Int → Int
  | 0, n => n
  | fuel + 1, n => if used.contains n then freshNo used fuel (n + 1) else n

/-- The finalization loop of `_extract_problem_candidates_from_layout`
(`enumerate(ordered, start=1)`; skipped items advance the index but do not
reserve a candidate number). -/
def finalizeLoop (sd : Option (ℚ × ℚ)) (layout_mode : PStr) (split_x : ℚ) :
    List JValue → Nat → List Int → List JValue
  | [], _, _ => []
  | item :: rest, index, used =>
      let bboxOpt : Option JValue :=
        match item.get "bbox".data with
        | .obj f => some (.obj f)
        | _ => extract_bbox item sd
      match bboxOpt with
      | none => finalizeLoop sd layout_mode split_x rest (index + 1) used
      | some bbox1 =>
          match to_bbox_xyxy bbox1 with
          | none => finalizeLoop sd layout_mode split_x rest (index + 1) used
          | some r =>
              let bbox2 := bbox_dict_from_xyxy r sd
              let center_x := (r.1 + r.2.2.1) / 2
              let cn : Int :=
                match asIntJ (item.get "candidate_no".data) with
                | some n =>
                    if n ≤ 0 ∨ used.contains n then freshNo used (used.length + 1) (index : Int)
                    else n
                | none => freshNo used (used.length + 1) (index : Int)
              let layout_column : Int :=
                if layout_mode = "two_column".data then
                  if center_x ≤ split_x then 1 else 2
                else 1
              let strat :=
                if layout_mode = "two_column".data then "layout_columns_two".data
                else "layout_columns_single".data
              let st := pyStrip (pyStrOf (pyOr (item.get "statement_text".data) (.str [])))
              let st2 := if st = [] then intRender cn ++ "번 문항".data else st
              .obj [("candidate_no".data, .num (cn : ℚ)),
                    ("statement_text".data, .str st2),
                    ("split_strategy".data, .str strat),
                    ("bbox".data, bbox2),
                    ("layout_column".data, .num (layout_column : ℚ)),
                    ("layout_mode".data, .str layout_mode)] ::
                finalizeLoop sd layout_mode split_x rest (index + 1) (cn :: used)

/-- `_extract_problem_candidates_from_layout(payload)`. -/
def extract_problem_candidates_from_layout (payload : JValue) : List JValue :=
  match payload.get "lines".data with
  | .arr lines_raw =>
      let sd := resolve_source_dimensions payload
      let nodes := lines_raw.filter (·.isObj)
      if nodes.length < 3 then []
      else
        let node_by_id := nodeById nodes
        let root_candidates := nodes.filterMap (rootCandidateOf sd node_by_id)
        if root_candidates = [] then []
        else
          let page_width := resolve_page_width payload root_candidates
          let md := detect_layout_mode root_candidates page_width
          let ordered := stableSort
            (fun a b =>
              layoutKeyLe (candidate_layout_sort_key a md.1 md.2)
                (candidate_layout_sort_key b md.1 md.2))
            root_candidates
          finalizeLoop sd md.1 md.2 ordered 1 []
  | _ => []

/-- The slicing loop of `extract_problem_candidates`: each candidate's text
is `cleaned[match.start() : next_match.start()]` (or to the end), stripped;
empty slices are dropped. -/
def candLoop (cleaned : PStr) (strategy : PStr) : List ReMatch → List JValue
  | [] => []
  | m :: rest =>
      let endPos :=
        match rest with
        | m2 :: _ => m2.start
        | [] => cleaned.length
      let st := pyStrip ((cleaned.drop m.start).take (endPos - m.start))
      if st = [] then candLoop cleaned strategy rest
      else
        .obj [("candidate_no".data, .num ((digitsToNat m.group1 : Int) : ℚ)),
              ("statement_text".data, .str st),
              ("split_strategy".data, .str strategy)] :: candLoop cleaned strategy rest

/-- The text half of `extract_problem_candidates` (from `cleaned = ...` on). -/
def extractFromText (fallback_text : PStr) : List JValue :=
  let cleaned := pyStrip fallback_text
  if cleaned = [] then []
  else
    let ms := select_best_split_matches cleaned
    if ms.1 = [] then
      [.obj [("candidate_no".data, .num 1),
             ("statement_text".data, .str cleaned),
             ("split_strategy".data, .str "full_page_fallback".data)]]
    else candLoop cleaned ms.2 ms.1

/-- `extract_problem_candidates(text, page_raw_payload)`. -/
def extract_problem_candidates (text : PStr) (page_raw_payload : JValue) : List JValue :=
  match page_raw_payload with
  | .obj f =>
      let payload := JValue.obj f
      let structured := extract_problem_candidates_from_layout payload
      if structured ≠ [] then structured
      else
        let fallback_text :=
          match extract_non_visual_page_text payload with
          | some t => t
          | none => text
        extractFromText fallback_text
  | _ => extractFromText text

end AIClassifier

/-- **C8.** Bbox parsing is total and fails closed.  Both parsers
(`_to_bbox_xyxy` in `ai_classifier.py` and `_to_xyxy` in
`problem_asset_extractor.py`) are total functions into `Option` — for every
input of any shape they return either a canonical rectangle or `None`
(exceptions in the source are caught per encoding and become `None`).
Encodings are tried in their fixed order: a coercion failure inside the
first applicable encoding yields `None` without falling through to a later
valid encoding, and when several encodings are present the earliest wins;
malformed lists and non-dict/list scalars also yield `None`. -/
theorem claim_C8_bbox_parsing_total_fail_closed :
    (∀ v : JValue, AIClassifier.to_bbox_xyxy v = none ∨
      ∃ r : ℚ × ℚ × ℚ × ℚ, AIClassifier.to_bbox_xyxy v = some r) ∧
    (∀ v : JValue, AssetExtractor.to_xyxy v = none ∨
      ∃ r : ℚ × ℚ × ℚ × ℚ, AssetExtractor.to_xyxy v = some r) ∧
    AIClassifier.to_bbox_xyxy (.obj
      [("x1".data, .str "bad".data), ("y1".data, .num 0),
       ("x2".data, .num 1), ("y2".data, .num 1),
       ("left".data, .num 0), ("top".data, .num 0),
       ("right".data, .num 1), ("bottom".data, .num 1)]) = none ∧
    AssetExtractor.to_xyxy (.obj
      [("x0_ratio".data, .str "bad".data), ("y0_ratio".data, .num 0),
       ("x1_ratio".data, .num 1), ("y1_ratio".data, .num 1),
       ("x1".data, .num 0), ("y1".data, .num 0),
       ("x2".data, .num 1), ("y2".data, .num 1)]) = none ∧
    AIClassifier.to_bbox_xyxy (.obj
      [("x1".data, .num 1), ("y1".data, .num 2),
       ("x2".data, .num 3), ("y2".data, .num 4),
       ("left".data, .num 9), ("top".data, .num 9),
       ("right".data, .num 9), ("bottom".data, .num 9)]) = some (1, 2, 3, 4) ∧
    AssetExtractor.to_xyxy (.obj
      [("x0_ratio".data, .num 0), ("y0_ratio".data, .num 0),
       ("x1_ratio".data, .num 1), ("y1_ratio".data, .num 1),
       ("x1".data, .num 9), ("y1".data, .num 9),
       ("x2".data, .num 9), ("y2".data, .num 9)]) = some (0, 0, 1, 1) ∧
    AIClassifier.to_bbox_xyxy (.arr [.num 1, .num 2, .str "x".data, .num 4]) = none ∧
    AIClassifier.to_bbox_xyxy (.str "bbox".data) = none ∧
    AssetExtractor.to_xyxy (.str "bbox".data) = none := by
  refine ⟨fun v => ?_, fun v => ?_, by decide, by decide, by decide, by decide,
    by decide, by decide, by decide⟩
  · rcases h : AIClassifier.to_bbox_xyxy v with _ | r
    · exact Or.inl rfl
    · exact Or.inr ⟨r, rfl⟩
  · rcases h : AssetExtractor.to_xyxy v with _ | r
    · exact Or.inl rfl
    · exact Or.inr ⟨r, rfl⟩

namespace AIClassifier

/-- The `(strategy, matches)` list that `_select_best_split_matches` folds
over (one entry per pattern, in declaration order). -/
def scoredOf (text : PStr) : List (PStr × List ReMatch) :=
  splitPatterns.map fun p => (p.1, finditer p.2 text)

theorem selectBestLoop_spec (scored : List (PStr × List ReMatch))
    (acc : List ReMatch × PStr × Int) :
    acc.2.2 ≤ (selectBestLoop scored acc).2.2 ∧
    (∀ p ∈ scored, p.2 ≠ [] →
      (scoreOfMatches p.2 : Int) ≤ (selectBestLoop scored acc).2.2) ∧
    (selectBestLoop scored acc = acc ∨
      ∃ p ∈ scored, p.2 ≠ [] ∧
        selectBestLoop scored acc = (p.2, p.1, (scoreOfMatches p.2 : Int))) := by
  induction scored generalizing acc with
  | nil => exact ⟨le_refl _, by simp, Or.inl rfl⟩
  | cons hd tl ih =>
      obtain ⟨s, ms⟩ := hd
      by_cases hms : ms = []
      · have h := ih acc
        refine ⟨?_, ?_, ?_⟩
        · simpa [selectBestLoop, hms] using h.1
        · intro p hp hpne
          rcases List.mem_cons.mp hp with rfl | hp
          · exact absurd hms (by simpa using hpne)
          · simpa [selectBestLoop, hms] using h.2.1 p hp hpne
        · rcases h.2.2 with h3 | ⟨p, hp, hpne, h3⟩
          · exact Or.inl (by simpa [selectBestLoop, hms] using h3)
          · exact Or.inr ⟨p, List.mem_cons_of_mem _ hp, hpne,
              by simpa [selectBestLoop, hms] using h3⟩
      · by_cases hgt : (scoreOfMatches ms : Int) > acc.2.2
        · have h := ih (ms, s, (scoreOfMatches ms : Int))
          have heq : selectBestLoop ((s, ms) :: tl) acc =
              selectBestLoop tl (ms, s, (scoreOfMatches ms : Int)) := by
            simp [selectBestLoop, hms, hgt]
          refine ⟨?_, ?_, ?_⟩
          · rw [heq]; exact le_trans (le_of_lt hgt) h.1
          · intro p hp hpne
            rw [heq]
            rcases List.mem_cons.mp hp with heq2 | hp
            · have : p.2 = ms := by rw [heq2]
              rw [this]; exact h.1
            · exact h.2.1 p hp hpne
          · rw [heq]
            rcases h.2.2 with h3 | ⟨p, hp, hpne, h3⟩
            · exact Or.inr ⟨(s, ms), List.mem_cons_self _ _, hms, h3⟩
            · exact Or.inr ⟨p, List.mem_cons_of_mem _ hp, hpne, h3⟩
        · have h := ih acc
          have heq : selectBestLoop ((s, ms) :: tl) acc = selectBestLoop tl acc := by
            simp [selectBestLoop, hms, hgt]
          refine ⟨?_, ?_, ?_⟩
          · rw [heq]; exact h.1
          · intro p hp hpne
            rw [heq]
            rcases List.mem_cons.mp hp with heq2 | hp
            · have : p.2 = ms := by rw [heq2]
              rw [this]; exact le_trans (not_lt.mp hgt) h.1
            · exact h.2.1 p hp hpne
          · rcases h.2.2 with h3 | ⟨p, hp, hpne, h3⟩
            · exact Or.inl (heq.trans h3)
            · exact Or.inr ⟨p, List.mem_cons_of_mem _ hp, hpne, heq.trans h3⟩

end AIClassifier

/-- **C9.** Regex segmentation scoring: `[1, 2, 3, 5, 6]` is accepted as a
likely problem sequence (each consecutive gap is in (0, 3], earning the +2
bonus) while `[1, 9, 2, 14]` is rejected; a pattern's score is its match
count plus 2 exactly when its captured numbers form such a sequence; and
whenever `_select_best_split_matches` returns a non-empty match list, that
list is one of the four patterns' match lists and its score is maximal
among all patterns that matched at all. -/
theorem claim_C9_scoring :
    AIClassifier.is_likely_problem_sequence [1, 2, 3, 5, 6] = true ∧
    AIClassifier.is_likely_problem_sequence [1, 9, 2, 14] = false ∧
    (∀ ms : List AIClassifier.ReMatch,
      (AIClassifier.is_likely_problem_sequence (AIClassifier.numbersOf ms) = true →
        AIClassifier.scoreOfMatches ms = ms.length + 2) ∧
      (AIClassifier.is_likely_problem_sequence (AIClassifier.numbersOf ms) = false →
        AIClassifier.scoreOfMatches ms = ms.length)) ∧
    (∀ text : PStr, (AIClassifier.select_best_split_matches text).1 ≠ [] →
      (∃ p ∈ AIClassifier.scoredOf text,
        (AIClassifier.select_best_split_matches text).1 = p.2 ∧
        (AIClassifier.select_best_split_matches text).2 = p.1) ∧
      ∀ p ∈ AIClassifier.scoredOf text, p.2 ≠ [] →
        AIClassifier.scoreOfMatches p.2 ≤
          AIClassifier.scoreOfMatches (AIClassifier.select_best_split_matches text).1) := by
  refine ⟨by decide, by decide, fun ms => ⟨fun h => ?_, fun h => ?_⟩, fun text hne => ?_⟩
  · simp [AIClassifier.scoreOfMatches, h]
  · simp [AIClassifier.scoreOfMatches, h]
  · have hsel : AIClassifier.select_best_split_matches text =
        ((AIClassifier.selectBestLoop (AIClassifier.scoredOf text)
            ([], "numbered".data, -1)).1,
          (AIClassifier.selectBestLoop (AIClassifier.scoredOf text)
            ([], "numbered".data, -1)).2.1) := rfl
    have hspec := AIClassifier.selectBestLoop_spec (AIClassifier.scoredOf text)
      ([], "numbered".data, -1)
    rcases hspec.2.2 with hacc | ⟨p, hp, hpne, hr⟩
    · exact absurd (by rw [hsel, hacc]) hne
    · refine ⟨⟨p, hp, by rw [hsel, hr], by rw [hsel, hr]⟩, fun q hq hqne => ?_⟩
      have hle := hspec.2.1 q hq hqne
      rw [hr] at hle
      have hle2 : (AIClassifier.scoreOfMatches q.2 : Int) ≤
          (AIClassifier.scoreOfMatches p.2 : Int) := hle
      have h1 : (AIClassifier.select_best_split_matches text).1 = p.2 := by rw [hsel, hr]
      rw [h1]
      exact_mod_cast hle2

/-- Witness for C9: the score of an empty match list, and the
maximal-selection facts at the two-problem text `"1. a\n2. b"`. -/
theorem claim_C9_witness :
    (AIClassifier.scoreOfMatches ([] : List AIClassifier.ReMatch) =
      ([] : List AIClassifier.ReMatch).length) ∧
    ((∃ p ∈ AIClassifier.scoredOf "1. a\n2. b".data,
        (AIClassifier.select_best_split_matches "1. a\n2. b".data).1 = p.2 ∧
        (AIClassifier.select_best_split_matches "1. a\n2. b".data).2 = p.1) ∧
      ∀ p ∈ AIClassifier.scoredOf "1. a\n2. b".data, p.2 ≠ [] →
        AIClassifier.scoreOfMatches p.2 ≤
          AIClassifier.scoreOfMatches
            (AIClassifier.select_best_split_matches "1. a\n2. b".data).1) :=
  ⟨(claim_C9_scoring.2.2.1 []).2 (by decide),
    claim_C9_scoring.2.2.2 "1. a\n2. b".data (by decide)⟩

namespace AIClassifier

/-- When none of the four patterns matches, `_select_best_split_matches`
returns its initial accumulator: no matches, strategy `"numbered"`. -/
theorem select_of_no_matches (cleaned : PStr)
    (h1 : finditer matchNumbered cleaned = [])
    (h2 : finditer matchBracketed cleaned = [])
    (h3 : finditer matchQuestionLabel cleaned = [])
    (h4 : finditer matchBeon cleaned = []) :
    select_best_split_matches cleaned = ([], "numbered".data) := by
  simp [select_best_split_matches, splitPatterns, selectBestLoop, h1, h2, h3, h4]

/-- The text half of `extract_problem_candidates` degrades to the single
`full_page_fallback` candidate when the stripped text is non-empty and no
pattern matches it. -/
theorem extractFromText_fallback (fb : PStr) (hne : pyStrip fb ≠ [])
    (h1 : finditer matchNumbered (pyStrip fb) = [])
    (h2 : finditer matchBracketed (pyStrip fb) = [])
    (h3 : finditer matchQuestionLabel (pyStrip fb) = [])
    (h4 : finditer matchBeon (pyStrip fb) = []) :
    extractFromText fb =
      [.obj [("candidate_no".data, .num 1),
             ("statement_text".data, .str (pyStrip fb)),
             ("split_strategy".data, .str "full_page_fallback".data)]] := by
  have hsel := select_of_no_matches (pyStrip fb) h1 h2 h3 h4
  simp [extractFromText, hne, hsel]

end AIClassifier

/-- **C7.** Full-page fallback: whenever the effective page text strips to a
non-empty string, no layout-derived candidates exist and none of the four
numbering patterns matches the text, `extract_problem_candidates` returns
exactly one candidate with `candidate_no` 1, the whole stripped text as
`statement_text`, and `split_strategy` `"full_page_fallback"`.  (The
embedding is a total function, so no code path raises.)  The first conjunct
covers a non-dict `page_raw_payload` (the effective text is the input text);
the second covers a dict payload with no layout candidates (the effective
text is the non-visual page text when present, else the input text). -/
theorem claim_C7_full_page_fallback (text : PStr) (payload : JValue) :
    (payload.isObj = false →
      pyStrip text ≠ [] →
      AIClassifier.finditer AIClassifier.matchNumbered (pyStrip text) = [] →
      AIClassifier.finditer AIClassifier.matchBracketed (pyStrip text) = [] →
      AIClassifier.finditer AIClassifier.matchQuestionLabel (pyStrip text) = [] →
      AIClassifier.finditer AIClassifier.matchBeon (pyStrip text) = [] →
      AIClassifier.extract_problem_candidates text payload =
        [.obj [("candidate_no".data, .num 1),
               ("statement_text".data, .str (pyStrip text)),
               ("split_strategy".data, .str "full_page_fallback".data)]]) ∧
    (∀ f, payload = .obj f →
      AIClassifier.extract_problem_candidates_from_layout payload = [] →
      pyStrip ((AIClassifier.extract_non_visual_page_text payload).getD text) ≠ [] →
      AIClassifier.finditer AIClassifier.matchNumbered
        (pyStrip ((AIClassifier.extract_non_visual_page_text payload).getD text)) = [] →
      AIClassifier.finditer AIClassifier.matchBracketed
        (pyStrip ((AIClassifier.extract_non_visual_page_text payload).getD text)) = [] →
      AIClassifier.finditer AIClassifier.matchQuestionLabel
        (pyStrip ((AIClassifier.extract_non_visual_page_text payload).getD text)) = [] →
      AIClassifier.finditer AIClassifier.matchBeon
        (pyStrip ((AIClassifier.extract_non_visual_page_text payload).getD text)) = [] →
      AIClassifier.extract_problem_candidates text payload =
        [.obj [("candidate_no".data, .num 1),
               ("statement_text".data,
                 .str (pyStrip ((AIClassifier.extract_non_visual_page_text payload).getD text))),
               ("split_strategy".data, .str "full_page_fallback".data)]]) := by
  constructor
  · intro hobj hne h1 h2 h3 h4
    have hplain : AIClassifier.extract_problem_candidates text payload =
        AIClassifier.extractFromText text := by
      cases payload with
      | obj f => simp [JValue.isObj] at hobj
      | null => rfl
      | bool b => rfl
      | num q => rfl
      | str s => rfl
      | arr xs => rfl
    rw [hplain]
    exact AIClassifier.extractFromText_fallback text hne h1 h2 h3 h4
  · intro f hf hlay hne h1 h2 h3 h4
    subst hf
    have hstep : AIClassifier.extract_problem_candidates text (.obj f) =
        AIClassifier.extractFromText
          ((AIClassifier.extract_non_visual_page_text (.obj f)).getD text) := by
      simp only [AIClassifier.extract_problem_candidates, hlay]
      cases AIClassifier.extract_non_visual_page_text (.obj f) <;> simp
    rw [hstep]
    exact AIClassifier.extractFromText_fallback _ hne h1 h2 h3 h4

/-- Witness for C7: the plain text `"hello world"` with a null payload, and
with a dict payload that has no usable `lines`, both collapse to the single
full-page-fallback candidate. -/
theorem claim_C7_witness :
    AIClassifier.extract_problem_candidates "hello world".data .null =
      [.obj [("candidate_no".data, .num 1),
             ("statement_text".data, .str "hello world".data),
             ("split_strategy".data, .str "full_page_fallback".data)]] ∧
    AIClassifier.extract_problem_candidates "hello world".data (.obj [("a".data, .null)]) =
      [.obj [("candidate_no".data, .num 1),
             ("statement_text".data, .str "hello world".data),
             ("split_strategy".data, .str "full_page_fallback".data)]] := by
  constructor
  · exact (claim_C7_full_page_fallback "hello world".data .null).1 (by decide) (by decide)
      (by decide) (by decide) (by decide) (by decide)
  · exact (claim_C7_full_page_fallback "hello world".data (.obj [("a".data, .null)])).2
      [("a".data, .null)] rfl (by decide) (by decide) (by decide) (by decide) (by decide)
      (by decide)

/-! ## C5 support: dedup and hint-shape lemmas -/

namespace AIClassifier

theorem get_canonical_source (g : JValue) :
    (canonicalHintOf g).get "source".data = .str (dedupSourceOf g) := by
  simp [canonicalHintOf, JValue.get, JValue.lookup]

theorem get_canonical_bbox (g : JValue) :
    (canonicalHintOf g).get "bbox".data =
      (match g.get "bbox".data with
        | .obj f => JValue.obj f
        | _ => JValue.null) := by
  simp [canonicalHintOf, JValue.get, JValue.lookup]

theorem get_mkHint_source (t src : PStr) (b : Option JValue) (e : List PStr) :
    (mkHint t src b e).get "source".data = .str src := by
  simp [mkHint, JValue.get, JValue.lookup]

theorem get_mkHint_bbox (t src : PStr) (b : Option JValue) (e : List PStr) :
    (mkHint t src b e).get "bbox".data = b.getD .null := by
  simp [mkHint, JValue.get, JValue.lookup]

theorem dedupSourceOf_mkHint (t src : PStr) (b : Option JValue) (e : List PStr) :
    dedupSourceOf (mkHint t src b e) =
      pyLower (pyStrip (pyStrOf (pyOr (.str src) (.str "unknown".data)))) := by
  unfold dedupSourceOf
  rw [get_mkHint_source]

/-- Every member of the dedup output is the canonical form of an input. -/
theorem mem_dedupeLoop (h : JValue) :
    ∀ (l : List JValue) (seen : List (PStr × PStr × PStr × List PStr)),
      h ∈ dedupeLoop l seen → ∃ g ∈ l, h = canonicalHintOf g := by
  intro l
  induction l with
  | nil => intro seen hm; simp [dedupeLoop] at hm
  | cons x rest ih =>
      intro seen hm
      by_cases hc : seen.contains (dedupKeyOf x)
      · rw [dedupeLoop, if_pos hc] at hm
        obtain ⟨g, hg, hgc⟩ := ih _ hm
        exact ⟨g, List.mem_cons_of_mem _ hg, hgc⟩
      · rw [dedupeLoop, if_neg hc] at hm
        rcases List.mem_cons.mp hm with rfl | hm
        · exact ⟨x, List.mem_cons_self _ _, rfl⟩
        · obtain ⟨g, hg, hgc⟩ := ih _ hm
          exact ⟨g, List.mem_cons_of_mem _ hg, hgc⟩

/-- Every input hint whose dedup key is not yet seen is represented in the
dedup output by a (canonicalized) hint with the same key. -/
theorem dedupeLoop_keeps (h : JValue) :
    ∀ (l : List JValue) (seen : List (PStr × PStr × PStr × List PStr)),
      h ∈ l → seen.contains (dedupKeyOf h) = false →
      ∃ g ∈ l, dedupKeyOf g = dedupKeyOf h ∧ canonicalHintOf g ∈ dedupeLoop l seen := by
  intro l
  induction l with
  | nil => intro seen hm _; simp at hm
  | cons x rest ih =>
      intro seen hm hseen
      by_cases hk : dedupKeyOf x = dedupKeyOf h
      · have hcx : seen.contains (dedupKeyOf x) = false := by rw [hk]; exact hseen
        rw [dedupeLoop, if_neg (by rw [hcx]; exact Bool.false_ne_true)]
        exact ⟨x, List.mem_cons_self _ _, hk, List.mem_cons_self _ _⟩
      · have hm' : h ∈ rest := by
          rcases List.mem_cons.mp hm with rfl | hm
          · exact absurd rfl hk
          · exact hm
        by_cases hcx : seen.contains (dedupKeyOf x)
        · rw [dedupeLoop, if_pos hcx]
          obtain ⟨g, hg, hgk, hgm⟩ := ih seen hm' hseen
          exact ⟨g, List.mem_cons_of_mem _ hg, hgk, hgm⟩
        · rw [dedupeLoop, if_neg hcx]
          have hseen' : (dedupKeyOf x :: seen).contains (dedupKeyOf h) = false := by
            simp only [List.contains_cons, Bool.or_eq_false_iff]
            refine ⟨?_, hseen⟩
            simpa using fun e => hk e.symm
          obtain ⟨g, hg, hgk, hgm⟩ := ih _ hm' hseen'
          exact ⟨g, List.mem_cons_of_mem _ hg, hgk, List.mem_cons_of_mem _ hgm⟩

end AIClassifier

namespace AIClassifier

theorem bbox_dict_isObj (r : ℚ × ℚ × ℚ × ℚ) (sd : Option (ℚ × ℚ)) :
    ∃ bf, bbox_dict_from_xyxy r sd = .obj bf := by
  unfold bbox_dict_from_xyxy
  rcases sd with _ | ⟨w, h⟩
  · exact ⟨_, rfl⟩
  · dsimp only
    split
    · exact ⟨_, rfl⟩
    · exact ⟨_, rfl⟩

theorem fromRegionOf_shape (node : JValue) (sd : Option (ℚ × ℚ)) :
    ∀ b, fromRegionOf node sd = some b → ∃ bf, b = .obj bf := by
  intro b hb
  unfold fromRegionOf at hb
  split at hb
  · simp only [] at hb
    split at hb
    · split at hb
      all_goals try exact Option.noConfusion hb
      obtain ⟨bf, hbf⟩ := bbox_dict_isObj _ sd
      injection hb with hb2
      exact ⟨bf, by rw [← hb2, hbf]⟩
    · exact Option.noConfusion hb
  · exact Option.noConfusion hb

theorem extract_bbox_shape (node : JValue) (sd : Option (ℚ × ℚ)) :
    ∀ b, extract_bbox node sd = some b → ∃ bf, b = .obj bf := by
  intro b hb
  unfold extract_bbox at hb
  split at hb
  · obtain ⟨bf, hbf⟩ := bbox_dict_isObj _ sd
    exact ⟨bf, by injection hb with hb2; rw [← hb2, hbf]⟩
  · split at hb
    · obtain ⟨bf, hbf⟩ := bbox_dict_isObj _ sd
      exact ⟨bf, by injection hb with hb2; rw [← hb2, hbf]⟩
    · split at hb
      · rename_i b2 hreg
        injection hb with hb2
        obtain ⟨bf, hbf⟩ := fromRegionOf_shape node sd b2 hreg
        exact ⟨bf, by rw [← hb2, hbf]⟩
      · split at hb
        · obtain ⟨bf, hbf⟩ := bbox_dict_isObj _ sd
          exact ⟨bf, by injection hb with hb2; rw [← hb2, hbf]⟩
        · exact Option.noConfusion hb

/-- Every hint produced by the recursive payload walk is a
`raw_payload_node` hint whose bbox is a dict when present. -/
theorem mem_collectPayloadHintsAux :
    ∀ (fuel : Nat) (v : JValue) (sd : Option (ℚ × ℚ)) (h : JValue),
      h ∈ collectPayloadHintsAux fuel v sd →
      ∃ t bb ev, h = mkHint t "raw_payload_node".data bb ev ∧
        ∀ b, bb = some b → ∃ bf, b = .obj bf := by
  intro fuel
  induction fuel with
  | zero => intro v sd h hm; simp [collectPayloadHintsAux] at hm
  | succ n ih =>
      intro v sd h hm
      cases v with
      | null => simp [collectPayloadHintsAux] at hm
      | bool b => simp [collectPayloadHintsAux] at hm
      | num q => simp [collectPayloadHintsAux] at hm
      | str s => simp [collectPayloadHintsAux] at hm
      | arr items =>
          simp only [collectPayloadHintsAux] at hm
          rw [List.mem_flatten] at hm
          obtain ⟨l, hl, hhl⟩ := hm
          rw [List.mem_map] at hl
          obtain ⟨it, _, rfl⟩ := hl
          exact ih it sd h hhl
      | obj fields =>
          simp only [collectPayloadHintsAux] at hm
          rw [List.mem_append] at hm
          rcases hm with hm | hm
          · rcases hinf : infer_asset_type_from_node (.obj fields) with _ | t
            · rw [hinf] at hm; simp at hm
            · rw [hinf] at hm
              rcases List.mem_singleton.mp hm with rfl
              exact ⟨t, extract_bbox (.obj fields) sd, collect_node_tokens (.obj fields),
                rfl, fun b hb => extract_bbox_shape (.obj fields) sd b hb⟩
          · rw [List.mem_flatten] at hm
            obtain ⟨l, hl, hhl⟩ := hm
            rw [List.mem_map] at hl
            obtain ⟨kv, _, rfl⟩ := hl
            exact ih kv.2 sd h hhl

/-- Shape of the hints returned by `_collect_payload_asset_hints`. -/
theorem mem_collect_payload_asset_hints (payload : JValue) (sd : Option (ℚ × ℚ))
    (h : JValue) (hm : h ∈ collect_payload_asset_hints payload sd) :
    ∃ t bb ev, h = mkHint t "raw_payload_node".data bb ev ∧
      ∀ b, bb = some b → ∃ bf, b = .obj bf := by
  cases payload with
  | null => simp [collect_payload_asset_hints] at hm
  | bool b => simp [collect_payload_asset_hints] at hm
  | num q => simp [collect_payload_asset_hints] at hm
  | str s => simp [collect_payload_asset_hints] at hm
  | arr items =>
      simp only [collect_payload_asset_hints] at hm
      rw [List.mem_flatten] at hm
      obtain ⟨l, hl, hhl⟩ := hm
      rw [List.mem_map] at hl
      obtain ⟨it, _, rfl⟩ := hl
      exact mem_collectPayloadHintsAux 6 it sd h hhl
  | obj fields =>
      simp only [collect_payload_asset_hints] at hm
      rw [List.mem_append] at hm
      rcases hm with hm | hm
      · rcases hinf : infer_asset_type_from_node (.obj fields) with _ | t
        · rw [hinf] at hm; simp at hm
        · rw [hinf] at hm
          rcases List.mem_singleton.mp hm with rfl
          exact ⟨t, _, _, rfl, fun b hb => extract_bbox_shape (.obj fields) _ b hb⟩
      · rw [List.mem_flatten] at hm
        obtain ⟨l, hl, hhl⟩ := hm
        rw [List.mem_map] at hl
        obtain ⟨kv, _, rfl⟩ := hl
        exact mem_collectPayloadHintsAux 6 kv.2 _ h hhl

end AIClassifier

namespace AIClassifier

theorem mem_statementHintsOf (normalized : PStr) (rcb : Option JValue) (h : JValue)
    (hm : h ∈ statementHintsOf normalized rcb) :
    ∃ t ev, h = mkHint t "statement_text".data rcb ev := by
  unfold statementHintsOf at hm
  split at hm
  · rw [List.mem_filterMap] at hm
    obtain ⟨tk, _, hf⟩ := hm
    dsimp only [] at hf
    split at hf
    · exact ⟨tk.1, _, (Option.some.inj hf).symm⟩
    · exact Option.noConfusion hf
  · simp at hm

theorem mem_collect_payload_text_hints (payload : JValue) (h : JValue)
    (hm : h ∈ collect_payload_text_hints payload) :
    ∃ t ev, h = mkHint t "raw_payload_text".data none ev := by
  unfold collect_payload_text_hints at hm
  rw [List.mem_filterMap] at hm
  obtain ⟨tk, _, hf⟩ := hm
  dsimp only [] at hf
  split at hf
  · exact ⟨tk.1, _, (Option.some.inj hf).symm⟩
  · exact Option.noConfusion hf

theorem mem_withGraphFallback (hints : List JValue) (normalized : PStr)
    (rcb : Option JValue) (h : JValue) (hm : h ∈ withGraphFallback hints normalized rcb) :
    h ∈ hints ∨ ∃ cbv,
      h = mkHint "graph".data "statement_text_bbox_fallback".data (some cbv)
        ["keyword_graph".data] := by
  rcases rcb with _ | c
  · exact Or.inl hm
  · simp only [withGraphFallback] at hm
    split at hm
    · rw [List.mem_append] at hm
      rcases hm with hm | hm
      · exact Or.inl hm
      · exact Or.inr ⟨c, List.mem_singleton.mp hm⟩
    · exact Or.inl hm

/-- The graph fallback only appends hints. -/
theorem subset_withGraphFallback (hints : List JValue) (normalized : PStr)
    (rcb : Option JValue) (h : JValue) (hm : h ∈ hints) :
    h ∈ withGraphFallback hints normalized rcb := by
  rcases rcb with _ | c
  · exact hm
  · simp only [withGraphFallback]
    split
    · exact List.mem_append_left _ hm
    · exact hm

theorem mem_dictHintsOf (normalized : PStr) (rcb : Option JValue) (payload : JValue)
    (sd : Option (ℚ × ℚ)) (h : JValue) (hm : h ∈ dictHintsOf normalized rcb payload sd) :
    h ∈ payloadHintsOf payload sd rcb ∨
      (∃ t ev, h = mkHint t "statement_text".data rcb ev) ∨
      (∃ t ev, h = mkHint t "raw_payload_text".data none ev) := by
  unfold dictHintsOf at hm
  simp only [] at hm
  split at hm
  · rw [List.mem_append] at hm
    rcases hm with hm | hm
    · rw [List.mem_append] at hm
      rcases hm with hm | hm
      · exact Or.inl hm
      · split at hm
        · rw [List.mem_filter] at hm
          exact Or.inr (Or.inl (mem_statementHintsOf _ _ h hm.1))
        · exact Or.inr (Or.inl (mem_statementHintsOf _ _ h hm))
    · exact Or.inr (Or.inr (mem_collect_payload_text_hints payload h hm))
  · rw [List.mem_append] at hm
    rcases hm with hm | hm
    · exact Or.inl hm
    · split at hm
      · rw [List.mem_filter] at hm
        exact Or.inr (Or.inl (mem_statementHintsOf _ _ h hm.1))
      · exact Or.inr (Or.inl (mem_statementHintsOf _ _ h hm))

/-- Payload hints go into the dict-branch hint list unchanged. -/
theorem payload_subset_dictHintsOf (normalized : PStr) (rcb : Option JValue)
    (payload : JValue) (sd : Option (ℚ × ℚ)) (h : JValue)
    (hm : h ∈ payloadHintsOf payload sd rcb) :
    h ∈ dictHintsOf normalized rcb payload sd := by
  unfold dictHintsOf
  simp only []
  split
  · exact List.mem_append_left _ (List.mem_append_left _ hm)
  · exact List.mem_append_left _ hm

/-- A parseable candidate bbox dict is non-empty, hence truthy. -/
theorem truthy_of_parse (cf : List (PStr × JValue)) (c : ℚ × ℚ × ℚ × ℚ)
    (h : to_bbox_xyxy (.obj cf) = some c) : JValue.truthy (.obj cf) = true := by
  cases cf with
  | nil =>
      have hn : to_bbox_xyxy (.obj []) = none := by decide
      rw [hn] at h
      exact Option.noConfusion h
  | cons a l => simp [JValue.truthy]

/-- Membership characterization of `_filter_asset_hints_by_candidate_bbox`
when the candidate bbox parses. -/
theorem filter_hints_mem_iff (hints : List JValue) (cb : JValue) (c : ℚ × ℚ × ℚ × ℚ)
    (hc : to_bbox_xyxy cb = some c) (hint : JValue) :
    hint ∈ filter_asset_hints_by_candidate_bbox hints cb ↔
      (hint ∈ hints ∧ ∃ r, to_bbox_xyxy (hint.get "bbox".data) = some r ∧
        0 < bbox_intersection_area c r ∧ 0 < bbox_area r ∧
        (0.15 : ℚ) ≤ bbox_intersection_area c r / bbox_area r) := by
  unfold filter_asset_hints_by_candidate_bbox
  rw [hc]
  rw [List.mem_filter]
  refine and_congr_right fun _ => ?_
  rcases hparse : to_bbox_xyxy (hint.get "bbox".data) with _ | hx
  · simp [hparse]
  · simp only [hparse, Option.some.injEq]
    constructor
    · intro hp
      split_ifs at hp with h1 h2
      all_goals first
        | exact ⟨hx, rfl, lt_of_not_le h1, lt_of_not_le h2, hp⟩
        | exact ⟨hx, rfl, lt_of_not_le h1, lt_of_not_le h2, of_decide_eq_true hp⟩
    · rintro ⟨r, rfl, hov, har, hratio⟩
      rw [if_neg (not_le.mpr hov), if_neg (not_le.mpr har)]
      exact decide_eq_true hratio

end AIClassifier

namespace AIClassifier

/-- Exclusion: every `raw_payload_node` hint in the collected output passed
the candidate-overlap filter. -/
theorem collect_excludes_low_overlap (st : PStr) (pf cf : List (PStr × JValue))
    (c : ℚ × ℚ × ℚ × ℚ) (hint : JValue)
    (hc : to_bbox_xyxy (.obj cf) = some c)
    (hm : hint ∈ collect_problem_asset_hints st (some (.obj pf)) (some (.obj cf)))
    (hsrc : hint.get "source".data = .str "raw_payload_node".data) :
    ∃ r, to_bbox_xyxy (hint.get "bbox".data) = some r ∧
      0 < bbox_intersection_area c r ∧ 0 < bbox_area r ∧
      (0.15 : ℚ) ≤ bbox_intersection_area c r / bbox_area r := by
  have hcoll : collect_problem_asset_hints st (some (.obj pf)) (some (.obj cf)) =
      dedupe_asset_hints (withGraphFallback
        (dictHintsOf (pyLower (pyStrip st)) (some (.obj cf)) (.obj pf)
          (resolve_source_dimensions (.obj pf)))
        (pyLower (pyStrip st)) (some (.obj cf))) := rfl
  rw [hcoll] at hm
  obtain ⟨g, hg, rfl⟩ := mem_dedupeLoop hint _ [] hm
  rw [get_canonical_source] at hsrc
  have hsg : dedupSourceOf g = "raw_payload_node".data := by injection hsrc
  rcases mem_withGraphFallback _ _ _ g hg with hg | ⟨cbv, rfl⟩
  · rcases mem_dictHintsOf _ _ _ _ g hg with hg | ⟨t, ev, rfl⟩ | ⟨t, ev, rfl⟩
    · have ht := truthy_of_parse cf c hc
      simp only [payloadHintsOf, ht, if_true] at hg
      rw [filter_hints_mem_iff _ _ c hc] at hg
      obtain ⟨hgmem, r, hr, hov, har, hratio⟩ := hg
      obtain ⟨t, bb, ev, rfl, hbbshape⟩ := mem_collect_payload_asset_hints _ _ g hgmem
      rcases bb with _ | b
      · rw [get_mkHint_bbox] at hr
        simp only [Option.getD] at hr
        have hnull : to_bbox_xyxy JValue.null = none := rfl
        rw [hnull] at hr
        exact Option.noConfusion hr
      · obtain ⟨bf, rfl⟩ := hbbshape b rfl
        refine ⟨r, ?_, hov, har, hratio⟩
        rw [get_canonical_bbox, get_mkHint_bbox]
        rw [get_mkHint_bbox] at hr
        simpa using hr
    · rw [dedupSourceOf_mkHint] at hsg
      exact absurd hsg (by decide)
    · rw [dedupSourceOf_mkHint] at hsg
      exact absurd hsg (by decide)
  · rw [dedupSourceOf_mkHint] at hsg
    exact absurd hsg (by decide)

/-- Keeping: every payload node hint that passes the candidate-overlap
conditions is represented in the collected output by its canonical,
dedup-key-equal form. -/
theorem collect_keeps_high_overlap (st : PStr) (pf cf : List (PStr × JValue))
    (c r : ℚ × ℚ × ℚ × ℚ) (hint' : JValue)
    (hc : to_bbox_xyxy (.obj cf) = some c)
    (hm : hint' ∈ collect_payload_asset_hints (.obj pf) (resolve_source_dimensions (.obj pf)))
    (hr : to_bbox_xyxy (hint'.get "bbox".data) = some r)
    (hov : 0 < bbox_intersection_area c r)
    (har : 0 < bbox_area r)
    (hratio : (0.15 : ℚ) ≤ bbox_intersection_area c r / bbox_area r) :
    ∃ g, canonicalHintOf g ∈
        collect_problem_asset_hints st (some (.obj pf)) (some (.obj cf)) ∧
      dedupKeyOf g = dedupKeyOf hint' := by
  have hfil : hint' ∈ filter_asset_hints_by_candidate_bbox
      (collect_payload_asset_hints (.obj pf) (resolve_source_dimensions (.obj pf)))
      (.obj cf) :=
    (filter_hints_mem_iff _ _ c hc hint').mpr ⟨hm, r, hr, hov, har, hratio⟩
  have hph : hint' ∈ payloadHintsOf (.obj pf) (resolve_source_dimensions (.obj pf))
      (some (.obj cf)) := by
    have ht := truthy_of_parse cf c hc
    simp only [payloadHintsOf, ht, if_true]
    exact hfil
  have hdict := payload_subset_dictHintsOf (pyLower (pyStrip st)) (some (.obj cf))
    (.obj pf) _ hint' hph
  have hwgf := subset_withGraphFallback _ (pyLower (pyStrip st)) (some (.obj cf))
    hint' hdict
  obtain ⟨g, _, hkey, hmem⟩ := dedupeLoop_keeps hint' _ [] hwgf rfl
  exact ⟨g, hmem, hkey⟩

end AIClassifier

/-- Concrete payload for the C5 witness: the payload itself is a graph node
with a pixel bbox `[10, 10, 20, 20]`. -/
def c5pf : List (PStr × JValue) :=
  [("type".data, .str "graph".data),
   ("bbox".data, .arr [.num 10, .num 10, .num 20, .num 20])]

/-- Concrete candidate bbox for the C5 witness: `(0, 0, 100, 100)`. -/
def c5cf : List (PStr × JValue) :=
  [("x1".data, .num 0), ("y1".data, .num 0),
   ("x2".data, .num 100), ("y2".data, .num 100)]

/-- The payload node hint collected from `c5pf`. -/
def c5hint : JValue :=
  AIClassifier.mkHint "graph".data "raw_payload_node".data
    (some (.obj [("x1".data, .num 10), ("y1".data, .num 10),
                 ("x2".data, .num 20), ("y2".data, .num 20)]))
    ["graph".data]

/-- **C5.** The 15%-overlap filter.  (1) `_filter_asset_hints_by_candidate_bbox`
keeps exactly the hints whose bbox parses, overlaps the parsed candidate
bbox positively, has positive area, and overlaps by at least 15% of the
hint's own area.  (2) In `collect_problem_asset_hints` with a parseable
candidate bbox, every `raw_payload_node` hint in the output satisfies those
overlap conditions — hints overlapping by less than 15% of their own area
are excluded.  (3) Conversely, every collected payload node hint meeting
the overlap conditions is kept: the output contains its canonical form (the
dedup stage normalizes fields and drops key-identical duplicates, so keeping
is stated up to dedup-key equality). -/
theorem claim_C5_overlap_filter :
    (∀ (hints : List JValue) (cb : JValue) (c : ℚ × ℚ × ℚ × ℚ),
      AIClassifier.to_bbox_xyxy cb = some c →
      ∀ hint, hint ∈ AIClassifier.filter_asset_hints_by_candidate_bbox hints cb ↔
        (hint ∈ hints ∧
          ∃ r, AIClassifier.to_bbox_xyxy (hint.get "bbox".data) = some r ∧
            0 < AIClassifier.bbox_intersection_area c r ∧
            0 < AIClassifier.bbox_area r ∧
            (0.15 : ℚ) ≤ AIClassifier.bbox_intersection_area c r /
              AIClassifier.bbox_area r)) ∧
    (∀ (st : PStr) (pf cf : List (PStr × JValue)) (c : ℚ × ℚ × ℚ × ℚ) (hint : JValue),
      AIClassifier.to_bbox_xyxy (.obj cf) = some c →
      hint ∈ AIClassifier.collect_problem_asset_hints st (some (.obj pf))
        (some (.obj cf)) →
      hint.get "source".data = .str "raw_payload_node".data →
      ∃ r, AIClassifier.to_bbox_xyxy (hint.get "bbox".data) = some r ∧
        0 < AIClassifier.bbox_intersection_area c r ∧
        0 < AIClassifier.bbox_area r ∧
        (0.15 : ℚ) ≤ AIClassifier.bbox_intersection_area c r /
          AIClassifier.bbox_area r) ∧
    (∀ (st : PStr) (pf cf : List (PStr × JValue)) (c r : ℚ × ℚ × ℚ × ℚ)
      (hint' : JValue),
      AIClassifier.to_bbox_xyxy (.obj cf) = some c →
      hint' ∈ AIClassifier.collect_payload_asset_hints (.obj pf)
        (AIClassifier.resolve_source_dimensions (.obj pf)) →
      AIClassifier.to_bbox_xyxy (hint'.get "bbox".data) = some r →
      0 < AIClassifier.bbox_intersection_area c r →
      0 < AIClassifier.bbox_area r →
      (0.15 : ℚ) ≤ AIClassifier.bbox_intersection_area c r /
        AIClassifier.bbox_area r →
      ∃ g, AIClassifier.canonicalHintOf g ∈
          AIClassifier.collect_problem_asset_hints st (some (.obj pf))
            (some (.obj cf)) ∧
        AIClassifier.dedupKeyOf g = AIClassifier.dedupKeyOf hint') :=
  ⟨fun hints cb c hc hint => AIClassifier.filter_hints_mem_iff hints cb c hc hint,
   fun st pf cf c hint hc hm hsrc =>
     AIClassifier.collect_excludes_low_overlap st pf cf c hint hc hm hsrc,
   fun st pf cf c r hint' hc hm hr hov har hratio =>
     AIClassifier.collect_keeps_high_overlap st pf cf c r hint' hc hm hr hov har hratio⟩

/-- Witness for C5: a graph payload node with bbox `[10,10,20,20]` against
the candidate bbox `(0,0,100,100)` (its overlap is 100% of its own area):
the collected output keeps it, the kept hint satisfies the overlap
conditions, and the filter characterization holds at these values. -/
theorem claim_C5_witness :
    (∃ g, AIClassifier.canonicalHintOf g ∈
        AIClassifier.collect_problem_asset_hints [] (some (.obj c5pf))
          (some (.obj c5cf)) ∧
      AIClassifier.dedupKeyOf g = AIClassifier.dedupKeyOf c5hint) ∧
    (∃ hint ∈ AIClassifier.collect_problem_asset_hints [] (some (.obj c5pf))
        (some (.obj c5cf)),
      hint.get "source".data = .str "raw_payload_node".data ∧
      ∃ r, AIClassifier.to_bbox_xyxy (hint.get "bbox".data) = some r ∧
        0 < AIClassifier.bbox_intersection_area (0, 0, 100, 100) r ∧
        0 < AIClassifier.bbox_area r ∧
        (0.15 : ℚ) ≤ AIClassifier.bbox_intersection_area (0, 0, 100, 100) r /
          AIClassifier.bbox_area r) ∧
    (c5hint ∈ AIClassifier.filter_asset_hints_by_candidate_bbox [c5hint] (.obj c5cf) ↔
      (c5hint ∈ [c5hint] ∧
        ∃ r, AIClassifier.to_bbox_xyxy (c5hint.get "bbox".data) = some r ∧
          0 < AIClassifier.bbox_intersection_area (0, 0, 100, 100) r ∧
          0 < AIClassifier.bbox_area r ∧
          (0.15 : ℚ) ≤ AIClassifier.bbox_intersection_area (0, 0, 100, 100) r /
            AIClassifier.bbox_area r)) := by
  have hc : AIClassifier.to_bbox_xyxy (.obj c5cf) = some (0, 0, 100, 100) := by decide
  have hm : c5hint ∈ AIClassifier.collect_payload_asset_hints (.obj c5pf)
      (AIClassifier.resolve_source_dimensions (.obj c5pf)) := by decide
  have hr : AIClassifier.to_bbox_xyxy (c5hint.get "bbox".data) =
      some (10, 10, 20, 20) := by decide
  have hov : 0 < AIClassifier.bbox_intersection_area (0, 0, 100, 100)
      ((10 : ℚ), (10 : ℚ), (20 : ℚ), (20 : ℚ)) := by
    norm_num [AIClassifier.bbox_intersection_area, AIClassifier.bbox_area,
      max_def, min_def]
  have har : 0 < AIClassifier.bbox_area ((10 : ℚ), (10 : ℚ), (20 : ℚ), (20 : ℚ)) := by
    norm_num [AIClassifier.bbox_area, max_def]
  have hratio : (0.15 : ℚ) ≤
      AIClassifier.bbox_intersection_area (0, 0, 100, 100)
          ((10 : ℚ), (10 : ℚ), (20 : ℚ), (20 : ℚ)) /
        AIClassifier.bbox_area ((10 : ℚ), (10 : ℚ), (20 : ℚ), (20 : ℚ)) := by
    norm_num [AIClassifier.bbox_intersection_area, AIClassifier.bbox_area,
      max_def, min_def]
  have hkeep := claim_C5_overlap_filter.2.2 [] c5pf c5cf (0, 0, 100, 100)
    (10, 10, 20, 20) c5hint hc hm hr hov har hratio
  refine ⟨hkeep, ?_,
    claim_C5_overlap_filter.1 [c5hint] (.obj c5cf) (0, 0, 100, 100) hc c5hint⟩
  obtain ⟨g, hgmem, hgkey⟩ := hkeep
  have hsg : AIClassifier.dedupSourceOf g = AIClassifier.dedupSourceOf c5hint :=
    congrArg (fun k => k.2.1) hgkey
  have hsrc : (AIClassifier.canonicalHintOf g).get "source".data =
      .str "raw_payload_node".data := by
    rw [AIClassifier.get_canonical_source, hsg]
    decide
  have hexcl := claim_C5_overlap_filter.2.1 [] c5pf c5cf (0, 0, 100, 100)
    (AIClassifier.canonicalHintOf g) hc hgmem hsrc
  exact ⟨AIClassifier.canonicalHintOf g, hgmem, hsrc, hexcl⟩
